import Mathlib

/-!
Verification of the goworks.api fabric command/event pipeline.

Shallow embedding of the Go sources:
* `internal/fabrics/domain` — the `Fabric` aggregate, its validation rules and
  mutating operations (`NewFabric`, `UpdateFabric`, `Delete`, `Reactivate`);
* `internal/platform/context` — command-source provenance carried in the call
  context;
* `internal/fabrics/infrastructure/persistence` — the Postgres command
  repository (`Save`, `GetByCode`, `Update`, `Delete`) modelled as pure
  transformations of the `fabrics` table (a list of rows);
* `internal/platform/eventstore` — the Postgres event store `Save`, modelled
  with explicit fault oracles for infrastructure failures;
* `internal/fabrics/application` — the command service (`CreateFabric`,
  `UpdateFabric`, `DeleteFabric`);
* `internal/fabrics/handler` — the inbound ERP event adapter
  (`handleCreateEvent`, `handleUpdateEvent`, `handleDeleteEvent`).

Go machine integers are modelled as `Int` (versions can be compared against
arbitrary caller-supplied values such as `0`), Go `len` on strings as UTF-8
byte size, and fallible operations return `Except`/`Option` results together
with the (otherwise in-place mutated) receiver state.
-/

namespace GoWorks

/-- Decidable equality for `Except`, so that concrete runs of the fallible
operations can be checked by `decide`. -/
instance {ε α : Type} [DecidableEq ε] [DecidableEq α] : DecidableEq (Except ε α) :=
  fun x y =>
    match x, y with
    | .ok a, .ok b =>
      if h : a = b then .isTrue (by rw [h])
      else .isFalse (fun hc => h (by injection hc))
    | .error a, .error b =>
      if h : a = b then .isTrue (by rw [h])
      else .isFalse (fun hc => h (by injection hc))
    | .ok _, .error _ => .isFalse (fun hc => Except.noConfusion hc)
    | .error _, .ok _ => .isFalse (fun hc => Except.noConfusion hc)

/-- Error values of the system: the seven sentinel errors of package `domain`,
the event store's own `ErrConcurrencyConflict` (a distinct Go error value,
defined in the eventstore package), and an `ErrInfra` constructor standing for
any infrastructure-class failure (driver/transaction errors) injected through
a fault oracle. -/
inductive AppError where
  | ErrInvalidFabricCodeLength
  | ErrInvalidFabricCodePattern
  | ErrInvalidFabricNameLength
  | ErrRecordNotFound
  | ErrDuplicateFabricCode
  | ErrConcurrencyConflict
  | ErrFabricDeleted
  | ErrEventStoreConcurrencyConflict
  | ErrInfra
deriving DecidableEq, Repr

/-- Status constant `domain.StatusActive = "ACTIVE"`. -/
def StatusActive : String := "ACTIVE"

/-- Status constant `domain.StatusDeleted = "DELETED"`. -/
def StatusDeleted : String := "DELETED"

/-- Domain events drained from the aggregate (`domain.FabricCreated`,
`FabricUpdated`, `FabricDeleted`, `FabricReactivated`). -/
inductive Event where
  | FabricCreated (code name measureUnit offerStatus : String) (version : Int)
  | FabricUpdated (code name measureUnit offerStatus : String) (version : Int)
  | FabricDeleted (code : String) (version : Int)
  | FabricReactivated (code name measureUnit offerStatus : String) (version : Int)
deriving DecidableEq, Repr

/-- The `domain.Fabric` aggregate. `events` is the transient list of pending
domain events; `status` is the free-form Go string field. -/
structure Fabric where
  Code : String
  Name : String
  MeasureUnit : String
  OfferStatus : String
  Status : String
  Version : Int
  events : List Event
deriving DecidableEq, Repr

/-- Go `len` on a string counts UTF-8 bytes. -/
def golen (s : String) : Nat := s.utf8ByteSize

/-- Membership in the regexp character class `[A-Z0-9]` (ASCII uppercase
letter or ASCII digit). -/
def isCodeChar (c : Char) : Bool := c.isUpper || c.isDigit

/-- Whether `regexp.MustCompile("^[A-Z0-9]+$")` accepts the whole string:
nonempty and every rune in the class. -/
def matchesCodePattern (s : String) : Bool :=
  !s.data.isEmpty && s.data.all isCodeChar

/-- `domain.validateCode`: length 2–30 bytes, then the `[A-Z0-9]+` pattern. -/
def validateCode (code : String) : Option AppError :=
  if golen code < 2 || golen code > 30 then some .ErrInvalidFabricCodeLength
  else if !matchesCodePattern code then some .ErrInvalidFabricCodePattern
  else none

/-- `domain.validateName`: length 1–250 bytes. -/
def validateName (name : String) : Option AppError :=
  if golen name < 1 || golen name > 250 then some .ErrInvalidFabricNameLength
  else none

/-- `domain.NewFabric`: validates code then name; on success the aggregate has
version 1, status ACTIVE and one pending `FabricCreated` event. -/
def NewFabric (code name measureUnit offerStatus : String) : Except AppError Fabric :=
  match validateCode code with
  | some e => .error e
  | none =>
    match validateName name with
    | some e => .error e
    | none =>
      let fabric : Fabric :=
        { Code := code, Name := name, MeasureUnit := measureUnit,
          OfferStatus := offerStatus, Status := StatusActive, Version := 1,
          events := [] }
      .ok { fabric with
              events := fabric.events ++
                [.FabricCreated fabric.Code fabric.Name fabric.MeasureUnit
                  fabric.OfferStatus fabric.Version] }

/-- `(*Fabric).UpdateFabric`: the receiver is returned unchanged alongside the
error on any failed check (the Go method returns before mutating); on success
fields are replaced, the version incremented and one `FabricUpdated` event
appended. -/
def Fabric.UpdateFabric (f : Fabric) (name measureUnit offerStatus : String)
    (version : Int) : Fabric × Option AppError :=
  if f.Status = StatusDeleted then (f, some .ErrFabricDeleted)
  else if f.Version ≠ version then (f, some .ErrConcurrencyConflict)
  else match validateName name with
    | some e => (f, some e)
    | none =>
      let f' : Fabric :=
        { f with Name := name, MeasureUnit := measureUnit,
                 OfferStatus := offerStatus, Version := f.Version + 1 }
      ({ f' with events := f'.events ++
          [.FabricUpdated f'.Code f'.Name f'.MeasureUnit f'.OfferStatus
            f'.Version] }, none)

/-- `(*Fabric).Delete`: rejects an already deleted aggregate and mismatched
versions; on success sets status DELETED, increments the version and appends
one `FabricDeleted` event. -/
def Fabric.Delete (f : Fabric) (version : Int) : Fabric × Option AppError :=
  if f.Status = StatusDeleted then (f, some .ErrFabricDeleted)
  else if f.Version ≠ version then (f, some .ErrConcurrencyConflict)
  else
    let f' : Fabric := { f with Status := StatusDeleted, Version := f.Version + 1 }
    ({ f' with events := f'.events ++ [.FabricDeleted f'.Code f'.Version] }, none)

/-- `(*Fabric).Reactivate`: on an ACTIVE aggregate it delegates to
`UpdateFabric`; on a DELETED aggregate it checks the version and name, then
sets status ACTIVE, replaces the fields, increments the version and appends one
`FabricReactivated` event. -/
def Fabric.Reactivate (f : Fabric) (name measureUnit offerStatus : String)
    (version : Int) : Fabric × Option AppError :=
  if f.Status = StatusActive then
    f.UpdateFabric name measureUnit offerStatus version
  else if f.Version ≠ version then (f, some .ErrConcurrencyConflict)
  else match validateName name with
    | some e => (f, some e)
    | none =>
      let f' : Fabric :=
        { f with Status := StatusActive, Name := name,
                 MeasureUnit := measureUnit, OfferStatus := offerStatus,
                 Version := f.Version + 1 }
      ({ f' with events := f'.events ++
          [.FabricReactivated f'.Code f'.Name f'.MeasureUnit f'.OfferStatus
            f'.Version] }, none)

/-- `(*Fabric).Events`. -/
def Fabric.Events (f : Fabric) : List Event := f.events

/-! ### Command-source context (`internal/platform/context`) -/

/-- `command.CommandSource` ("rest" / "event"). -/
inductive CommandSource where
  | rest
  | event
deriving DecidableEq, Repr

/-- A Go `context.Context` restricted to the single key this code stores in
it: either no command-source value was set, or one was set with
`WithCommandSource`. -/
def Ctx : Type := Option CommandSource

/-- `command.WithCommandSource`. -/
def WithCommandSource (_ : Ctx) (source : CommandSource) : Ctx := some source

/-- `command.GetCommandSource`: the stored value, or `rest` as safe default. -/
def GetCommandSource : Ctx → CommandSource
  | some source => source
  | none => .rest

/-- `command.IsFromREST`. -/
def IsFromREST (ctx : Ctx) : Bool := GetCommandSource ctx = .rest

/-- `command.IsFromEvent`. -/
def IsFromEvent (ctx : Ctx) : Bool := GetCommandSource ctx = .event

/-! ### Command repository (`persistence.FabricPostgresRepository`)

The `fabrics` table is a list of rows; a row is a `Fabric` scanned from the
six persisted columns, so its `events` field is always `[]`. SQL `UPDATE`
statements transform every row matched by their `WHERE` clause and report the
number of rows affected. -/

/-- Projection of an aggregate to its persisted columns (a scanned row has no
pending events). -/
def toRow (f : Fabric) : Fabric := { f with events := [] }

/-- `FabricPostgresRepository.GetByCode`: `SELECT ... WHERE code = $1 AND
status = 'ACTIVE'`; no row means `ErrRecordNotFound`. -/
def repoGetByCode (table : List Fabric) (code : String) : Except AppError Fabric :=
  match table.find? (fun r => r.Code = code ∧ r.Status = StatusActive) with
  | some r => .ok r
  | none => .error .ErrRecordNotFound

/-- `FabricPostgresRepository.Save`: select the row for the code `FOR UPDATE`;
an ACTIVE row means `ErrDuplicateFabricCode`; a DELETED row is reactivated via
the aggregate's `Reactivate` at its stored version and written back (`UPDATE
... WHERE code = $6`); otherwise the fresh aggregate is inserted. -/
def repoSave (table : List Fabric) (fabric : Fabric) :
    List Fabric × Except AppError Fabric :=
  match table.find? (fun r => r.Code = fabric.Code) with
  | some existing =>
    if existing.Status = StatusActive then
      (table, .error .ErrDuplicateFabricCode)
    else if existing.Status = StatusDeleted then
      match existing.Reactivate fabric.Name fabric.MeasureUnit
          fabric.OfferStatus existing.Version with
      | (_, some e) => (table, .error e)
      | (reactivated, none) =>
        (table.map (fun r =>
          if r.Code = reactivated.Code then
            { r with Name := reactivated.Name,
                     MeasureUnit := reactivated.MeasureUnit,
                     OfferStatus := reactivated.OfferStatus,
                     Status := reactivated.Status,
                     Version := reactivated.Version }
          else r), .ok reactivated)
    else
      (table ++ [toRow fabric], .ok fabric)
  | none => (table ++ [toRow fabric], .ok fabric)

/-- `FabricPostgresRepository.Update`: `UPDATE fabrics SET name, measure_unit,
offer_status, version = fabric.Version WHERE code = fabric.Code AND version =
fabric.Version - 1 AND status = 'ACTIVE'`; zero rows affected means
`ErrRecordNotFound`. -/
def repoUpdate (table : List Fabric) (fabric : Fabric) :
    List Fabric × Option AppError :=
  let rowMatch := fun (r : Fabric) =>
    r.Code = fabric.Code ∧ r.Version = fabric.Version - 1 ∧
      r.Status = StatusActive
  if table.countP (fun r => decide (rowMatch r)) = 0 then
    (table, some .ErrRecordNotFound)
  else
    (table.map (fun r =>
      if rowMatch r then
        { r with Name := fabric.Name, MeasureUnit := fabric.MeasureUnit,
                 OfferStatus := fabric.OfferStatus, Version := fabric.Version }
      else r), none)

/-- `FabricPostgresRepository.Delete`: `UPDATE fabrics SET status = 'DELETED'
WHERE code = fabric.Code AND version = fabric.Version`; zero rows affected
means `ErrRecordNotFound`. Note the `WHERE` clause uses `fabric.Version`
itself (not `fabric.Version - 1`) and the `SET` clause does not write the
version column. -/
def repoDelete (table : List Fabric) (fabric : Fabric) :
    List Fabric × Option AppError :=
  let rowMatch := fun (r : Fabric) =>
    r.Code = fabric.Code ∧ r.Version = fabric.Version
  if table.countP (fun r => decide (rowMatch r)) = 0 then
    (table, some .ErrRecordNotFound)
  else
    (table.map (fun r =>
      if rowMatch r then { r with Status := StatusDeleted } else r), none)

/-! ### Event envelopes and the event store (`messaging`, `eventstore`) -/

/-- `messaging.EventEnvelope` restricted to the fields the pipeline reads
(`EventID`/`Timestamp` are a fresh UUID and clock reading, irrelevant to the
claims; `CorrelationID`/`CausationID`/`UserID` default to empty and are never
set by the service). -/
structure EventEnvelope where
  EventType : String
  AggregateID : String
  AggregateType : String
  AggregateVersion : Int
  EventVersion : Int
  Payload : Event
deriving DecidableEq, Repr

/-- `messaging.NewEventEnvelope` with no options: `EventVersion` defaults
to 1. -/
def NewEventEnvelope (eventType aggregateID aggregateType : String)
    (aggregateVersion : Int) (payload : Event) : EventEnvelope :=
  { EventType := eventType, AggregateID := aggregateID,
    AggregateType := aggregateType, AggregateVersion := aggregateVersion,
    EventVersion := 1, Payload := payload }

/-- Errors of `eventstore.PostgresStore.Save`: the unique-constraint violation
(Postgres error 23505 on `(aggregate_id, aggregate_version)`) mapped to the
store's `ErrConcurrencyConflict`, and any other driver/transaction failure. -/
inductive EsError where
  | conflict
  | storage
deriving DecidableEq, Repr

/-- Whether the `events` table (or transaction-local inserts) already holds a
row with this `(aggregate_id, aggregate_version)` natural key. -/
def hasKey (rows : List EventEnvelope) (aggregateID : String)
    (aggregateVersion : Int) : Bool :=
  rows.any (fun r =>
    r.AggregateID = aggregateID ∧ r.AggregateVersion = aggregateVersion)

/-- The insert loop of `PostgresStore.Save`: each `ExecContext` either fails
with an injected infrastructure fault, violates the
`unique_aggregate_version` constraint when the key already exists (in the
table or among the rows inserted earlier in the same transaction), or inserts
the row. The first failure aborts the loop (the deferred `Rollback` undoes the
transaction). -/
def esInsertLoop (rows : List EventEnvelope) (batch : List EventEnvelope)
    (execFault : Nat → Bool) (i : Nat) : Except EsError (List EventEnvelope) :=
  match batch with
  | [] => .ok rows
  | e :: rest =>
    if execFault i then .error .storage
    else if hasKey rows e.AggregateID e.AggregateVersion then .error .conflict
    else esInsertLoop (rows ++ [e]) rest execFault (i + 1)

/-- `eventstore.PostgresStore.Save`: begin a transaction, insert every
envelope of the batch, commit; any failure rolls back, so the table is either
extended by the whole batch or unchanged. `beginFault`/`execFault`/
`commitFault` are the infrastructure-failure oracles for `BeginTx`, each
`ExecContext`, and `Commit`. -/
def esSave (table : List EventEnvelope) (batch : List EventEnvelope)
    (beginFault : Bool) (execFault : Nat → Bool) (commitFault : Bool) :
    List EventEnvelope × Option EsError :=
  if beginFault then (table, some .storage)
  else match esInsertLoop table batch execFault 0 with
    | .error e => (table, some e)
    | .ok rows => if commitFault then (table, some .storage) else (rows, none)

/-! ### Command service (`application.FabricService`)

The service is composed with the real repository and event-store models: its
state is the pair of the `fabrics` table and the `events` table. Explicit
fault oracles inject the infrastructure failures the Go collaborators can
produce. The publisher is append-only from the service's point of view:
`Publish` errors are logged and dropped, so a publish attempt is recorded as
the envelope together with whether delivery succeeded. -/

/-- The two persistent tables the pipeline writes. -/
structure SysState where
  fabrics : List Fabric
  events : List EventEnvelope
deriving DecidableEq, Repr

/-- Injected infrastructure failures: repository reads/writes, the event
store's transaction steps, and the outward publisher (one flag per envelope
index). -/
structure Faults where
  repoGetFault : Bool
  repoWriteFault : Bool
  storeBeginFault : Bool
  storeExecFault : Nat → Bool
  storeCommitFault : Bool
  pubFault : Nat → Bool

/-- The all-clear oracle: no infrastructure failure anywhere. -/
def noFaults : Faults :=
  { repoGetFault := false, repoWriteFault := false, storeBeginFault := false,
    storeExecFault := fun _ => false, storeCommitFault := false,
    pubFault := fun _ => false }

/-- What a command-service call yields besides the new state: the Go return
value, the envelopes appended to the event store, and the publish attempts
(envelope, delivery succeeded). -/
structure SvcResult (α : Type) where
  result : Except AppError α
  stored : List EventEnvelope
  published : List (EventEnvelope × Bool)

/-- How the service surfaces an event-store failure: the store's conflict is
a distinct error value from `domain.ErrConcurrencyConflict` (the wrapping
with `fmt.Errorf` preserves the wrapped value for `errors.Is`). -/
def mapEsError : EsError → AppError
  | .conflict => .ErrEventStoreConcurrencyConflict
  | .storage => .ErrInfra

/-- The publish loop: every envelope is handed to the publisher; a failed
`Publish` is only logged, so the loop always completes. -/
def publishAll (envs : List EventEnvelope) (pubFault : Nat → Bool) :
    List (EventEnvelope × Bool) :=
  envs.enum.map (fun p => (p.2, !pubFault p.1))

/-- Envelope construction in `FabricService.CreateFabric`: only
`FabricCreated` and `FabricReactivated` events are wrapped (aggregate type
string `"fabric"`), tagged with the persisted aggregate's code and version. -/
def createEnvelopes (persisted : Fabric) : List EventEnvelope :=
  persisted.Events.filterMap (fun e =>
    match e with
    | .FabricCreated _ _ _ _ _ =>
      some (NewEventEnvelope "app.fabric.created" persisted.Code "fabric"
        persisted.Version e)
    | .FabricReactivated _ _ _ _ _ =>
      some (NewEventEnvelope "app.fabric.reactivated" persisted.Code "fabric"
        persisted.Version e)
    | _ => none)

/-- Envelope construction in `FabricService.UpdateFabric`: only
`FabricUpdated` events are wrapped (aggregate type `"Fabric"`). -/
def updatedEnvelopes (fabric : Fabric) : List EventEnvelope :=
  fabric.Events.filterMap (fun e =>
    match e with
    | .FabricUpdated _ _ _ _ _ =>
      some (NewEventEnvelope "app.fabric.updated" fabric.Code "Fabric"
        fabric.Version e)
    | _ => none)

/-- Envelope construction in `FabricService.DeleteFabric`: only
`FabricDeleted` events are wrapped (aggregate type `"Fabric"`). -/
def deletedEnvelopes (fabric : Fabric) : List EventEnvelope :=
  fabric.Events.filterMap (fun e =>
    match e with
    | .FabricDeleted _ _ =>
      some (NewEventEnvelope "app.fabric.deleted" fabric.Code "Fabric"
        fabric.Version e)
    | _ => none)

/-- `FabricService.CreateFabric`: build the aggregate, persist it through the
repository's `Save`, append the created/reactivated envelopes to the event
store (note the repository write is already committed when the append fails),
and forward the envelopes to the publisher only when the context says the
command came from REST. -/
def CreateFabricSvc (st : SysState) (fl : Faults) (ctx : Ctx)
    (code name measureUnit offerStatus : String) : SysState × SvcResult Fabric :=
  match NewFabric code name measureUnit offerStatus with
  | .error e => (st, ⟨.error e, [], []⟩)
  | .ok fabric =>
    if fl.repoWriteFault then (st, ⟨.error .ErrInfra, [], []⟩)
    else match repoSave st.fabrics fabric with
    | (_, .error e) => (st, ⟨.error e, [], []⟩)
    | (fabrics', .ok persisted) =>
      let envs := createEnvelopes persisted
      if envs.isEmpty then ({ st with fabrics := fabrics' }, ⟨.ok persisted, [], []⟩)
      else match esSave st.events envs fl.storeBeginFault fl.storeExecFault
          fl.storeCommitFault with
        | (_, some e) =>
          ({ st with fabrics := fabrics' }, ⟨.error (mapEsError e), [], []⟩)
        | (events', none) =>
          let pub := if IsFromREST ctx then publishAll envs fl.pubFault else []
          ({ fabrics := fabrics', events := events' }, ⟨.ok persisted, envs, pub⟩)

/-- `FabricService.UpdateFabric`: load the active aggregate, apply the
aggregate-level update, persist through the conditional `Update`, append the
updated envelope, publish only when from REST. -/
def UpdateFabricSvc (st : SysState) (fl : Faults) (ctx : Ctx)
    (code name measureUnit offerStatus : String) (version : Int) :
    SysState × SvcResult Fabric :=
  if fl.repoGetFault then (st, ⟨.error .ErrInfra, [], []⟩)
  else match repoGetByCode st.fabrics code with
  | .error e => (st, ⟨.error e, [], []⟩)
  | .ok fabric =>
    match fabric.UpdateFabric name measureUnit offerStatus version with
    | (_, some e) => (st, ⟨.error e, [], []⟩)
    | (updated, none) =>
      if fl.repoWriteFault then (st, ⟨.error .ErrInfra, [], []⟩)
      else match repoUpdate st.fabrics updated with
      | (_, some e) => (st, ⟨.error e, [], []⟩)
      | (fabrics', none) =>
        let envs := updatedEnvelopes updated
        if envs.isEmpty then
          ({ st with fabrics := fabrics' }, ⟨.ok updated, [], []⟩)
        else match esSave st.events envs fl.storeBeginFault fl.storeExecFault
            fl.storeCommitFault with
          | (_, some e) =>
            ({ st with fabrics := fabrics' }, ⟨.error (mapEsError e), [], []⟩)
          | (events', none) =>
            let pub := if IsFromREST ctx then publishAll envs fl.pubFault else []
            ({ fabrics := fabrics', events := events' }, ⟨.ok updated, envs, pub⟩)

/-- `FabricService.DeleteFabric`: load the active aggregate, apply the
aggregate-level delete, persist through the repository's `Delete`, append the
deleted envelope, publish only when from REST. The Go method returns only an
error, modelled as `Except AppError Unit`. -/
def DeleteFabricSvc (st : SysState) (fl : Faults) (ctx : Ctx)
    (code : String) (version : Int) : SysState × SvcResult Unit :=
  if fl.repoGetFault then (st, ⟨.error .ErrInfra, [], []⟩)
  else match repoGetByCode st.fabrics code with
  | .error e => (st, ⟨.error e, [], []⟩)
  | .ok fabric =>
    match fabric.Delete version with
    | (_, some e) => (st, ⟨.error e, [], []⟩)
    | (deleted, none) =>
      if fl.repoWriteFault then (st, ⟨.error .ErrInfra, [], []⟩)
      else match repoDelete st.fabrics deleted with
      | (_, some e) => (st, ⟨.error e, [], []⟩)
      | (fabrics', none) =>
        let envs := deletedEnvelopes deleted
        if envs.isEmpty then
          ({ st with fabrics := fabrics' }, ⟨.ok (), [], []⟩)
        else match esSave st.events envs fl.storeBeginFault fl.storeExecFault
            fl.storeCommitFault with
          | (_, some e) =>
            ({ st with fabrics := fabrics' }, ⟨.error (mapEsError e), [], []⟩)
          | (events', none) =>
            let pub := if IsFromREST ctx then publishAll envs fl.pubFault else []
            ({ fabrics := fabrics', events := events' }, ⟨.ok (), envs, pub⟩)

/-! ### Inbound ERP event adapter (`handler.FabricEventHandler`) -/

/-- `handler.erpFabricEvent`: the decoded external payload. -/
structure ErpFabricEvent where
  Code : String
  Name : String
  MeasureUnit : String
  OfferStatus : String
deriving DecidableEq, Repr

/-- `(*FabricEventHandler).withDefaults`: substitute the hardcoded fallbacks
for missing optional fields. -/
def withDefaults (event : ErpFabricEvent) : ErpFabricEvent :=
  { event with
      MeasureUnit := if event.MeasureUnit = "" then "MB" else event.MeasureUnit,
      OfferStatus := if event.OfferStatus = "" then "ACTIVE" else event.OfferStatus }

/-- `handler.validateCreateFabricEvent`: the validator is valid when every
check passes. -/
def validCreateFabricEvent (event : ErpFabricEvent) : Bool :=
  decide (event.Code ≠ "") && decide (2 ≤ golen event.Code) &&
    decide (golen event.Code ≤ 30) && matchesCodePattern event.Code &&
    decide (event.Name ≠ "") && decide (golen event.Name ≤ 250)

/-- `handler.validateUpdateFabricEvent`. -/
def validUpdateFabricEvent (version : Int) (event : ErpFabricEvent) : Bool :=
  decide (0 < version) && decide (event.Name ≠ "") &&
    decide (golen event.Name ≤ 250)

/-- The error switch of `handleCreateEvent`: `DuplicateCode` and the three
validation errors are acknowledged (nil), everything else is returned for
redelivery. -/
def createErrPolicy : AppError → Option AppError
  | .ErrDuplicateFabricCode => none
  | .ErrInvalidFabricCodeLength => none
  | .ErrInvalidFabricCodePattern => none
  | .ErrInvalidFabricNameLength => none
  | e => some e

/-- The error switch of `handleUpdateEvent`: `NotFound`,
`ConcurrencyConflict` and the name validation error are acknowledged,
everything else is returned for redelivery. -/
def updateErrPolicy : AppError → Option AppError
  | .ErrRecordNotFound => none
  | .ErrConcurrencyConflict => none
  | .ErrInvalidFabricNameLength => none
  | e => some e

/-- The error switch of `handleDeleteEvent`: `NotFound` and
`ConcurrencyConflict` are acknowledged, everything else is returned for
redelivery. -/
def deleteErrPolicy : AppError → Option AppError
  | .ErrRecordNotFound => none
  | .ErrConcurrencyConflict => none
  | e => some e

/-- What an inbound handler call produced: the new system state, the error
returned to the message transport (`some` means the message is redelivered),
the expected version the handler passed to the command service (when it
called one taking a version), and whether the service was called at all. -/
structure HandlerOut where
  state : SysState
  retErr : Option AppError
  calledVersion : Option Int
  called : Bool
deriving DecidableEq, Repr

/-- `(*FabricEventHandler).handleCreateEvent`: tag the context as
event-sourced, substitute defaults, validate, call `CreateFabric`, apply the
create error switch. -/
def handleCreateEvent (st : SysState) (fl : Faults) (event : ErpFabricEvent) :
    HandlerOut :=
  let ctx := WithCommandSource none .event
  let ev := withDefaults event
  if !validCreateFabricEvent ev then ⟨st, none, none, false⟩
  else
    let (st', r) := CreateFabricSvc st fl ctx ev.Code ev.Name ev.MeasureUnit
      ev.OfferStatus
    match r.result with
    | .ok _ => ⟨st', none, none, true⟩
    | .error e => ⟨st', createErrPolicy e, none, true⟩

/-- `(*FabricEventHandler).handleUpdateEvent`: tag the context, substitute
defaults, validate, then call `UpdateFabric` with `version - 1` (the ERP
version denotes the version the event produces) and apply the update error
switch. -/
def handleUpdateEvent (st : SysState) (fl : Faults) (event : ErpFabricEvent)
    (version : Int) : HandlerOut :=
  let ctx := WithCommandSource none .event
  let ev := withDefaults event
  if !validUpdateFabricEvent version ev then ⟨st, none, none, false⟩
  else
    let (st', r) := UpdateFabricSvc st fl ctx ev.Code ev.Name ev.MeasureUnit
      ev.OfferStatus (version - 1)
    match r.result with
    | .ok _ => ⟨st', none, some (version - 1), true⟩
    | .error e => ⟨st', updateErrPolicy e, some (version - 1), true⟩

/-- `(*FabricEventHandler).handleDeleteEvent`: tag the context and call
`DeleteFabric` with the envelope's version as passed in (no defaults, no
validation, no subtraction), then apply the delete error switch. -/
def handleDeleteEvent (st : SysState) (fl : Faults) (event : ErpFabricEvent)
    (version : Int) : HandlerOut :=
  let ctx := WithCommandSource none .event
  let (st', r) := DeleteFabricSvc st fl ctx event.Code version
  match r.result with
  | .ok _ => ⟨st', none, some version, true⟩
  | .error e => ⟨st', deleteErrPolicy e, some version, true⟩

/-- Reachable-state invariant used to classify adapter retries: every row of
the `events` table belongs to an aggregate that exists in the `fabrics` table,
at an event version no greater than any stored row version for that code. It
holds of the empty system and is maintained by the pipeline because the state
write commits before the event append. -/
def invB (st : SysState) : Bool :=
  st.fabrics.all (fun r => r.events.isEmpty &&
    (decide (r.Status = StatusActive) || decide (r.Status = StatusDeleted))) &&
  st.events.all (fun env =>
    st.fabrics.any (fun r => decide (r.Code = env.AggregateID)) &&
    st.fabrics.all (fun r =>
      !(decide (r.Code = env.AggregateID)) ||
        decide (env.AggregateVersion ≤ r.Version)))

/-! ### Auxiliary notions used only to state properties -/

/-- A mutating aggregate operation (the receiver-mutating methods of
`domain.Fabric`), for reasoning about sequences of mutations. -/
inductive FabricOp where
  | update (name measureUnit offerStatus : String) (version : Int)
  | delete (version : Int)
  | reactivate (name measureUnit offerStatus : String) (version : Int)
deriving DecidableEq, Repr

/-- Dispatch one aggregate operation. -/
def applyOp (f : Fabric) : FabricOp → Fabric × Option AppError
  | .update name measureUnit offerStatus version =>
    f.UpdateFabric name measureUnit offerStatus version
  | .delete version => f.Delete version
  | .reactivate name measureUnit offerStatus version =>
    f.Reactivate name measureUnit offerStatus version

/-- Run a sequence of aggregate operations, counting the successful ones (a
failing operation leaves the aggregate as the method returned it, i.e.
untouched). -/
def runOps (f : Fabric) : List FabricOp → Fabric × Nat
  | [] => (f, 0)
  | op :: rest =>
    match applyOp f op with
    | (f', none) => ((runOps f' rest).1, (runOps f' rest).2 + 1)
    | (_, some _) => runOps f rest

/-- Whether inserting the batch in order would hit the
`(aggregate_id, aggregate_version)` uniqueness constraint, against the
existing rows or an earlier envelope of the same batch. -/
def batchHasDup (rows : List EventEnvelope) : List EventEnvelope → Bool
  | [] => false
  | e :: rest =>
    hasKey rows e.AggregateID e.AggregateVersion ||
      batchHasDup (rows ++ [e]) rest

/-- Everything a service call produces except the per-envelope delivery
outcomes: final state, return value, stored envelopes, publish attempts. -/
def scrub {α : Type} (p : SysState × SvcResult α) :
    SysState × Except AppError α × List EventEnvelope × List EventEnvelope :=
  (p.1, p.2.result, p.2.stored, p.2.published.map Prod.fst)

/-! ## Aggregate discipline -/

/-- `Reactivate` on an ACTIVE aggregate is literally the delegation to
`UpdateFabric` (the first branch of the method). -/
lemma reactivate_active_delegates (f : Fabric)
    (name measureUnit offerStatus : String) (version : Int)
    (h : f.Status = StatusActive) :
    f.Reactivate name measureUnit offerStatus version =
      f.UpdateFabric name measureUnit offerStatus version := by
  unfold Fabric.Reactivate
  rw [if_pos h]

/-- A successful `UpdateFabric` bumps the version by one and appends one
event. -/
lemma updateFabric_succ (f : Fabric) (name measureUnit offerStatus : String)
    (version : Int) (h : (f.UpdateFabric name measureUnit offerStatus version).2 = none) :
    (f.UpdateFabric name measureUnit offerStatus version).1.Version = f.Version + 1 ∧
    (f.UpdateFabric name measureUnit offerStatus version).1.events.length =
      f.events.length + 1 := by
  by_cases hd : f.Status = StatusDeleted
  · simp [Fabric.UpdateFabric, hd] at h
  · by_cases hv : f.Version = version
    · rcases hn : validateName name with _ | e
      · simp [Fabric.UpdateFabric, hd, hv, hn]
      · simp [Fabric.UpdateFabric, hd, hv, hn] at h
    · simp [Fabric.UpdateFabric, hd, hv] at h

/-- A failing `UpdateFabric` returns the receiver untouched. -/
lemma updateFabric_err (f : Fabric) (name measureUnit offerStatus : String)
    (version : Int) (e : AppError)
    (h : (f.UpdateFabric name measureUnit offerStatus version).2 = some e) :
    (f.UpdateFabric name measureUnit offerStatus version).1 = f := by
  by_cases hd : f.Status = StatusDeleted
  · simp [Fabric.UpdateFabric, hd]
  · by_cases hv : f.Version = version
    · rcases hn : validateName name with _ | e'
      · simp [Fabric.UpdateFabric, hd, hv, hn] at h
      · simp [Fabric.UpdateFabric, hd, hv, hn]
    · simp [Fabric.UpdateFabric, hd, hv]

/-- A successful `Delete` bumps the version by one and appends one event. -/
lemma delete_succ (f : Fabric) (version : Int)
    (h : (f.Delete version).2 = none) :
    (f.Delete version).1.Version = f.Version + 1 ∧
    (f.Delete version).1.events.length = f.events.length + 1 := by
  by_cases hd : f.Status = StatusDeleted
  · simp [Fabric.Delete, hd] at h
  · by_cases hv : f.Version = version
    · simp [Fabric.Delete, hd, hv]
    · simp [Fabric.Delete, hd, hv] at h

/-- A failing `Delete` returns the receiver untouched. -/
lemma delete_err (f : Fabric) (version : Int) (e : AppError)
    (h : (f.Delete version).2 = some e) : (f.Delete version).1 = f := by
  by_cases hd : f.Status = StatusDeleted
  · simp [Fabric.Delete, hd]
  · by_cases hv : f.Version = version
    · simp [Fabric.Delete, hd, hv] at h
    · simp [Fabric.Delete, hd, hv]

/-- A successful `Reactivate` bumps the version by one and appends one
event. -/
lemma reactivate_succ (f : Fabric) (name measureUnit offerStatus : String)
    (version : Int)
    (h : (f.Reactivate name measureUnit offerStatus version).2 = none) :
    (f.Reactivate name measureUnit offerStatus version).1.Version = f.Version + 1 ∧
    (f.Reactivate name measureUnit offerStatus version).1.events.length =
      f.events.length + 1 := by
  by_cases hA : f.Status = StatusActive
  · rw [reactivate_active_delegates f name measureUnit offerStatus version hA] at h ⊢
    exact updateFabric_succ f name measureUnit offerStatus version h
  · by_cases hv : f.Version = version
    · rcases hn : validateName name with _ | e
      · simp [Fabric.Reactivate, hA, hv, hn]
      · simp [Fabric.Reactivate, hA, hv, hn] at h
    · simp [Fabric.Reactivate, hA, hv] at h

/-- A failing `Reactivate` returns the receiver untouched. -/
lemma reactivate_err (f : Fabric) (name measureUnit offerStatus : String)
    (version : Int) (e : AppError)
    (h : (f.Reactivate name measureUnit offerStatus version).2 = some e) :
    (f.Reactivate name measureUnit offerStatus version).1 = f := by
  by_cases hA : f.Status = StatusActive
  · rw [reactivate_active_delegates f name measureUnit offerStatus version hA] at h ⊢
    exact updateFabric_err f name measureUnit offerStatus version e h
  · by_cases hv : f.Version = version
    · rcases hn : validateName name with _ | e'
      · simp [Fabric.Reactivate, hA, hv, hn] at h
      · simp [Fabric.Reactivate, hA, hv, hn]
    · simp [Fabric.Reactivate, hA, hv]

/-- Success of any dispatched operation bumps version and event count by
one. -/
lemma applyOp_succ (f : Fabric) (op : FabricOp) (h : (applyOp f op).2 = none) :
    (applyOp f op).1.Version = f.Version + 1 ∧
    (applyOp f op).1.events.length = f.events.length + 1 := by
  cases op with
  | update name measureUnit offerStatus version =>
    exact updateFabric_succ f name measureUnit offerStatus version h
  | delete version => exact delete_succ f version h
  | reactivate name measureUnit offerStatus version =>
    exact reactivate_succ f name measureUnit offerStatus version h

/-- Failure of any dispatched operation leaves the aggregate untouched. -/
lemma applyOp_err (f : Fabric) (op : FabricOp) (e : AppError)
    (h : (applyOp f op).2 = some e) : (applyOp f op).1 = f := by
  cases op with
  | update name measureUnit offerStatus version =>
    exact updateFabric_err f name measureUnit offerStatus version e h
  | delete version => exact delete_err f version e h
  | reactivate name measureUnit offerStatus version =>
    exact reactivate_err f name measureUnit offerStatus version e h

/-- Over a whole run, version and event count each grow by exactly the number
of successful operations. -/
lemma runOps_counts (ops : List FabricOp) : ∀ f : Fabric,
    (runOps f ops).1.Version = f.Version + (runOps f ops).2 ∧
    (runOps f ops).1.events.length = f.events.length + (runOps f ops).2 := by
  induction ops with
  | nil => intro f; simp [runOps]
  | cons op rest ih =>
    intro f
    rcases happ : applyOp f op with ⟨f', r⟩
    cases r with
    | none =>
      have hsucc := applyOp_succ f op (by rw [happ])
      rw [happ] at hsucc
      simp only [runOps, happ]
      obtain ⟨ihv, ihe⟩ := ih f'
      constructor
      · rw [ihv, hsucc.1]; push_cast; ring
      · rw [ihe, hsucc.2]; omega
    | some e =>
      simp only [runOps, happ]
      exact ih f

/-- A successful `NewFabric` yields version 1 and exactly one pending event,
and `validateName` accepted the name. -/
lemma newFabric_ok (code name measureUnit offerStatus : String) (f0 : Fabric)
    (h : NewFabric code name measureUnit offerStatus = .ok f0) :
    f0 = { Code := code, Name := name, MeasureUnit := measureUnit,
           OfferStatus := offerStatus, Status := StatusActive, Version := 1,
           events := [.FabricCreated code name measureUnit offerStatus 1] } ∧
    validateName name = none := by
  unfold NewFabric at h
  rcases hc : validateCode code with _ | e
  · rcases hn : validateName name with _ | e
    · rw [hc, hn] at h
      simp only [Except.ok.injEq] at h
      exact ⟨h.symm, rfl⟩
    · rw [hc, hn] at h; simp at h
  · rw [hc] at h; simp at h

/-- C3: every successful aggregate operation increments the version by
exactly 1 and appends exactly one pending event; every failing operation
leaves the aggregate (fields, status, version, pending events) unchanged;
creation yields version 1 with one pending event; hence after any sequence of
operations following a creation, the pending-event count equals the number of
successful mutations (the creation included). -/
theorem C3_version_and_event_discipline :
    (∀ (f : Fabric) (op : FabricOp), (applyOp f op).2 = none →
      (applyOp f op).1.Version = f.Version + 1 ∧
      (applyOp f op).1.events.length = f.events.length + 1) ∧
    (∀ (f : Fabric) (op : FabricOp) (e : AppError), (applyOp f op).2 = some e →
      (applyOp f op).1 = f) ∧
    (∀ (code name measureUnit offerStatus : String) (f0 : Fabric),
      NewFabric code name measureUnit offerStatus = .ok f0 →
      f0.Version = 1 ∧ f0.events.length = 1) ∧
    (∀ (f : Fabric) (ops : List FabricOp),
      (runOps f ops).1.Version = f.Version + (runOps f ops).2 ∧
      (runOps f ops).1.events.length = f.events.length + (runOps f ops).2) ∧
    (∀ (code name measureUnit offerStatus : String) (f0 : Fabric)
      (ops : List FabricOp),
      NewFabric code name measureUnit offerStatus = .ok f0 →
      (runOps f0 ops).1.events.length = (runOps f0 ops).2 + 1 ∧
      (runOps f0 ops).1.Version = (runOps f0 ops).2 + 1) := by
  refine ⟨applyOp_succ, applyOp_err, ?_, fun f ops => runOps_counts ops f, ?_⟩
  · intro code name measureUnit offerStatus f0 h
    rw [(newFabric_ok code name measureUnit offerStatus f0 h).1]
    exact ⟨rfl, rfl⟩
  · intro code name measureUnit offerStatus f0 ops h
    obtain ⟨hv, he⟩ := runOps_counts ops f0
    have h0 := (newFabric_ok code name measureUnit offerStatus f0 h).1
    constructor
    · rw [he, h0]; simp; omega
    · rw [hv, h0]; push_cast; ring

/-- C3 witness: a concrete creation followed by one successful update and one
failed (stale-version) update: two successes, two pending events, version 2. -/
theorem C3_witness :
    NewFabric "FAB1" "Cotton" "m" "available" =
      .ok { Code := "FAB1", Name := "Cotton", MeasureUnit := "m",
            OfferStatus := "available", Status := StatusActive, Version := 1,
            events := [.FabricCreated "FAB1" "Cotton" "m" "available" 1] } ∧
    (runOps { Code := "FAB1", Name := "Cotton", MeasureUnit := "m",
              OfferStatus := "available", Status := StatusActive, Version := 1,
              events := [.FabricCreated "FAB1" "Cotton" "m" "available" 1] }
      [.update "Silk" "m" "new" 1, .update "Wool" "m" "new" 1]).1.events.length =
      (runOps { Code := "FAB1", Name := "Cotton", MeasureUnit := "m",
                OfferStatus := "available", Status := StatusActive, Version := 1,
                events := [.FabricCreated "FAB1" "Cotton" "m" "available" 1] }
        [.update "Silk" "m" "new" 1, .update "Wool" "m" "new" 1]).2 + 1 :=
  ⟨by decide,
    (C3_version_and_event_discipline.2.2.2.2 "FAB1" "Cotton" "m" "available" _
      [.update "Silk" "m" "new" 1, .update "Wool" "m" "new" 1] (by decide)).1⟩

/-- C9: on an aggregate whose status is ACTIVE, `Reactivate` returns exactly
what `UpdateFabric` returns for the same arguments: the same resulting
aggregate, the same success or error, the same pending events. -/
theorem C9_reactivate_on_active_is_update (f : Fabric)
    (name measureUnit offerStatus : String) (version : Int)
    (h : f.Status = StatusActive) :
    f.Reactivate name measureUnit offerStatus version =
      f.UpdateFabric name measureUnit offerStatus version := by
  unfold Fabric.Reactivate
  rw [if_pos h]

/-- C9 witness: the delegation at a concrete ACTIVE aggregate. -/
theorem C9_witness :
    ({ Code := "FAB1", Name := "Cotton", MeasureUnit := "m",
       OfferStatus := "available", Status := StatusActive, Version := 1,
       events := [] } : Fabric).Status = StatusActive ∧
    ({ Code := "FAB1", Name := "Cotton", MeasureUnit := "m",
       OfferStatus := "available", Status := StatusActive, Version := 1,
       events := [] } : Fabric).Reactivate "Silk" "cm" "new" 1 =
      ({ Code := "FAB1", Name := "Cotton", MeasureUnit := "m",
         OfferStatus := "available", Status := StatusActive, Version := 1,
         events := [] } : Fabric).UpdateFabric "Silk" "cm" "new" 1 :=
  ⟨rfl, C9_reactivate_on_active_is_update _ "Silk" "cm" "new" 1 rfl⟩

/-- C8: a creation input with a 2–30 byte code drawn from `[A-Z0-9]` and a
1–250 byte name succeeds with version 1, status ACTIVE and exactly one
pending `FabricCreated` event carrying the input fields; any input outside
those bounds fails with the validation error naming the violated rule
(code length first, then code pattern, then name length) and yields no
aggregate. -/
theorem C8_newFabric_validation (code name measureUnit offerStatus : String) :
    (2 ≤ golen code → golen code ≤ 30 → matchesCodePattern code = true →
      1 ≤ golen name → golen name ≤ 250 →
      NewFabric code name measureUnit offerStatus =
        .ok { Code := code, Name := name, MeasureUnit := measureUnit,
              OfferStatus := offerStatus, Status := StatusActive, Version := 1,
              events := [.FabricCreated code name measureUnit offerStatus 1] }) ∧
    (golen code < 2 ∨ 30 < golen code →
      NewFabric code name measureUnit offerStatus =
        .error .ErrInvalidFabricCodeLength) ∧
    (2 ≤ golen code → golen code ≤ 30 → matchesCodePattern code = false →
      NewFabric code name measureUnit offerStatus =
        .error .ErrInvalidFabricCodePattern) ∧
    (2 ≤ golen code → golen code ≤ 30 → matchesCodePattern code = true →
      golen name < 1 ∨ 250 < golen name →
      NewFabric code name measureUnit offerStatus =
        .error .ErrInvalidFabricNameLength) := by
  refine ⟨?_, ?_, ?_, ?_⟩
  · intro h2 h30 hpat hn1 hn250
    have hcl : (golen code < 2 || golen code > 30) = false := by simp; omega
    have hcp : (!matchesCodePattern code) = false := by rw [hpat]; rfl
    have hnl : ¬(golen name = 0 ∨ 250 < golen name) := by omega
    simp [NewFabric, validateCode, validateName, hcl, hcp, hnl]
  · intro h
    have hcl : (golen code < 2 || golen code > 30) = true := by simp; omega
    simp [NewFabric, validateCode, hcl]
  · intro h2 h30 hpat
    have hcl : (golen code < 2 || golen code > 30) = false := by simp; omega
    have hcp : (!matchesCodePattern code) = true := by rw [hpat]; rfl
    simp [NewFabric, validateCode, hcl, hcp]
  · intro h2 h30 hpat hname
    have hcl : (golen code < 2 || golen code > 30) = false := by simp; omega
    have hcp : (!matchesCodePattern code) = false := by rw [hpat]; rfl
    have hnl : golen name = 0 ∨ 250 < golen name := by omega
    simp [NewFabric, validateCode, validateName, hcl, hcp, hnl]

/-- C8 witness: a valid input ("FAB1"/"Cotton") creates the expected
aggregate; an invalid code ("f" — too short) fails with the code-length
error. -/
theorem C8_witness :
    NewFabric "FAB1" "Cotton" "m" "available" =
      .ok { Code := "FAB1", Name := "Cotton", MeasureUnit := "m",
            OfferStatus := "available", Status := StatusActive, Version := 1,
            events := [.FabricCreated "FAB1" "Cotton" "m" "available" 1] } ∧
    NewFabric "f" "Cotton" "m" "available" =
      .error .ErrInvalidFabricCodeLength :=
  ⟨(C8_newFabric_validation "FAB1" "Cotton" "m" "available").1 (by decide)
      (by decide) (by decide) (by decide) (by decide),
    (C8_newFabric_validation "f" "Cotton" "m" "available").2.1
      (Or.inl (by decide))⟩

/-- C10: a call context in which no command-source value has been set reads
back as the REST source (`GetCommandSource` returns `rest`, `IsFromREST` is
true), and each of the three command-service operations behaves on the
untagged context exactly as on a context explicitly tagged REST — in
particular it forwards its envelopes to the outward publisher. -/
theorem C10_untagged_context_is_rest :
    GetCommandSource none = .rest ∧ IsFromREST none = true ∧
    (∀ (st : SysState) (fl : Faults) (code name measureUnit offerStatus : String),
      CreateFabricSvc st fl none code name measureUnit offerStatus =
        CreateFabricSvc st fl (some .rest) code name measureUnit offerStatus) ∧
    (∀ (st : SysState) (fl : Faults) (code name measureUnit offerStatus : String)
      (version : Int),
      UpdateFabricSvc st fl none code name measureUnit offerStatus version =
        UpdateFabricSvc st fl (some .rest) code name measureUnit offerStatus version) ∧
    (∀ (st : SysState) (fl : Faults) (code : String) (version : Int),
      DeleteFabricSvc st fl none code version =
        DeleteFabricSvc st fl (some .rest) code version) :=
  ⟨rfl, rfl, fun _ _ _ _ _ _ => rfl, fun _ _ _ _ _ _ _ => rfl,
    fun _ _ _ _ => rfl⟩

/-! ## Event store -/

/-- A successful insert loop appends exactly the batch. -/
lemma esLoop_ok (ef : Nat → Bool) : ∀ (batch rows out : List EventEnvelope)
    (i : Nat), esInsertLoop rows batch ef i = .ok out → out = rows ++ batch := by
  intro batch
  induction batch with
  | nil => intro rows out i h; simp [esInsertLoop] at h; simp [h.symm]
  | cons e rest ih =>
    intro rows out i h
    unfold esInsertLoop at h
    split at h
    · simp at h
    · split at h
      · simp at h
      · have := ih (rows ++ [e]) out (i + 1) h
        simp [this]

/-- The insert loop reports a conflict only when the batch really collides
with the existing rows or with itself. -/
lemma esLoop_conflict (ef : Nat → Bool) : ∀ (batch rows : List EventEnvelope)
    (i : Nat), esInsertLoop rows batch ef i = .error .conflict →
    batchHasDup rows batch = true := by
  intro batch
  induction batch with
  | nil => intro rows i h; simp [esInsertLoop] at h
  | cons e rest ih =>
    intro rows i h
    unfold esInsertLoop at h
    split at h
    · simp at h
    · split at h
      · simp [batchHasDup]
        left
        assumption
      · have := ih (rows ++ [e]) (i + 1) h
        simp [batchHasDup, this]

/-- Without injected faults the insert loop is exactly the duplicate check. -/
lemma esLoop_nofault (ef : Nat → Bool) (hf : ∀ i, ef i = false) :
    ∀ (batch rows : List EventEnvelope) (i : Nat),
    esInsertLoop rows batch ef i =
      (if batchHasDup rows batch then .error .conflict else .ok (rows ++ batch)) := by
  intro batch
  induction batch with
  | nil => intro rows i; simp [esInsertLoop, batchHasDup]
  | cons e rest ih =>
    intro rows i
    unfold esInsertLoop
    rw [hf i]
    simp only [Bool.false_eq_true, if_false]
    by_cases hk : hasKey rows e.AggregateID e.AggregateVersion
    · simp [hk, batchHasDup]
    · simp only [hk, Bool.false_eq_true, if_false]
      rw [ih (rows ++ [e]) (i + 1)]
      simp [batchHasDup, hk]

/-- C5: the event store's batch append is atomic — on success the table is
extended by exactly the whole batch, on any failure it is unchanged — and a
`(aggregateID, aggregateVersion)` uniqueness violation (against stored rows or
within the batch) is the one and only cause of the `ConcurrencyConflict`
result, which is distinct from the error reported for unrelated storage
failures. -/
theorem C5_eventstore_atomic_append (table batch : List EventEnvelope)
    (bf : Bool) (ef : Nat → Bool) (cf : Bool) :
    ((esSave table batch bf ef cf).2 = none →
      (esSave table batch bf ef cf).1 = table ++ batch) ∧
    ((esSave table batch bf ef cf).2 ≠ none →
      (esSave table batch bf ef cf).1 = table) ∧
    ((esSave table batch bf ef cf).2 = some .conflict →
      batchHasDup table batch = true) ∧
    (bf = false → (∀ i, ef i = false) → cf = false →
      ((esSave table batch bf ef cf).2 = some .conflict ↔
        batchHasDup table batch = true)) := by
  unfold esSave
  cases bf with
  | true =>
    refine ⟨by simp, by simp, by simp, ?_⟩
    intro h; exact absurd h (by simp)
  | false =>
    simp only [Bool.false_eq_true, if_false]
    rcases hL : esInsertLoop table batch ef 0 with e | out
    · refine ⟨by simp, by simp, ?_, ?_⟩
      · intro h
        cases e with
        | conflict => exact esLoop_conflict ef batch table 0 hL
        | storage => simp at h
      · intro _ hf _
        rw [esLoop_nofault ef hf batch table 0] at hL
        by_cases hd : batchHasDup table batch
        · simp [hd] at hL
          simp [hd, hL]
        · simp [hd] at hL
    · cases cf with
      | true =>
        refine ⟨by simp, by simp, by simp, ?_⟩
        intro _ _ h; exact absurd h (by simp)
      | false =>
        refine ⟨?_, by simp, by simp, ?_⟩
        · intro _
          simp only
          exact esLoop_ok ef batch table out 0 hL
        · intro _ hf _
          rw [esLoop_nofault ef hf batch table 0] at hL
          by_cases hd : batchHasDup table batch
          · simp [hd] at hL
          · simp [hd]

/-- C5 witness: a batch of two envelopes for versions 1 and 2 of the same
aggregate appends atomically onto an empty table. -/
theorem C5_witness :
    (esSave []
      [NewEventEnvelope "app.fabric.created" "FAB1" "fabric" 1
          (.FabricCreated "FAB1" "Cotton" "m" "available" 1),
        NewEventEnvelope "app.fabric.updated" "FAB1" "Fabric" 2
          (.FabricUpdated "FAB1" "Silk" "m" "new" 2)]
      false (fun _ => false) false).1 =
    [] ++
      [NewEventEnvelope "app.fabric.created" "FAB1" "fabric" 1
          (.FabricCreated "FAB1" "Cotton" "m" "available" 1),
        NewEventEnvelope "app.fabric.updated" "FAB1" "Fabric" 2
          (.FabricUpdated "FAB1" "Silk" "m" "new" 2)] :=
  (C5_eventstore_atomic_append [] _ false (fun _ => false) false).1 (by decide)

/-! ## Repository conditional writes (concrete evaluations)

The following closed theorems replay, over the embedding, the repository's
own integration-test scenarios
(`TestFabricPostgresRepository_Delete` and
`TestFabricPostgresRepository_Save_ReactivationIncrementsVersion`). -/

/-- C1: `FabricPostgresRepository.Delete` filters on `version =
fabric.Version` — the aggregate's already-incremented NEW version — and never
writes the version column. Replaying the repository's own delete test: a row
saved at version 1, the aggregate deleted (version 2), then `Delete` — the
conditional write matches zero rows and returns `ErrRecordNotFound`, leaving
the row ACTIVE at version 1, although the stored row sits exactly at
`fabric.Version - 1`. (`Update`, by contrast, does filter on
`version = fabric.Version - 1`.) -/
theorem C1_repoDelete_matches_new_version :
    NewFabric "DELETETEST" "To Be Deleted" "m" "available" =
      .ok { Code := "DELETETEST", Name := "To Be Deleted", MeasureUnit := "m",
            OfferStatus := "available", Status := StatusActive, Version := 1,
            events := [.FabricCreated "DELETETEST" "To Be Deleted" "m"
              "available" 1] } ∧
    (repoSave []
      { Code := "DELETETEST", Name := "To Be Deleted", MeasureUnit := "m",
        OfferStatus := "available", Status := StatusActive, Version := 1,
        events := [.FabricCreated "DELETETEST" "To Be Deleted" "m"
          "available" 1] }).1 =
      [{ Code := "DELETETEST", Name := "To Be Deleted", MeasureUnit := "m",
         OfferStatus := "available", Status := StatusActive, Version := 1,
         events := [] }] ∧
    Fabric.Delete
      { Code := "DELETETEST", Name := "To Be Deleted", MeasureUnit := "m",
        OfferStatus := "available", Status := StatusActive, Version := 1,
        events := [.FabricCreated "DELETETEST" "To Be Deleted" "m"
          "available" 1] } 1 =
      ({ Code := "DELETETEST", Name := "To Be Deleted", MeasureUnit := "m",
         OfferStatus := "available", Status := StatusDeleted, Version := 2,
         events := [.FabricCreated "DELETETEST" "To Be Deleted" "m"
             "available" 1,
           .FabricDeleted "DELETETEST" 2] }, none) ∧
    repoDelete
      [{ Code := "DELETETEST", Name := "To Be Deleted", MeasureUnit := "m",
         OfferStatus := "available", Status := StatusActive, Version := 1,
         events := [] }]
      { Code := "DELETETEST", Name := "To Be Deleted", MeasureUnit := "m",
        OfferStatus := "available", Status := StatusDeleted, Version := 2,
        events := [.FabricCreated "DELETETEST" "To Be Deleted" "m"
            "available" 1,
          .FabricDeleted "DELETETEST" 2] } =
      ([{ Code := "DELETETEST", Name := "To Be Deleted", MeasureUnit := "m",
          OfferStatus := "available", Status := StatusActive, Version := 1,
          events := [] }], some .ErrRecordNotFound) := by
  refine ⟨by decide, by decide, by decide, by decide⟩

/-- C2: for an aggregate at internal version 4, an inbound ERP `updated`
event carrying external version 5 reaches `UpdateFabric` with expected
version 4 (external minus one), but an inbound `deleted` event carrying the
same external version 5 reaches `DeleteFabric` with expected version 5 — not
4 — so the aggregate-level version check fails with `ConcurrencyConflict`,
the adapter swallows it, and the state is left untouched (the delete is never
applied). -/
theorem C2_delete_event_version_not_decremented :
    (handleUpdateEvent
      ⟨[{ Code := "FAB1", Name := "Cotton", MeasureUnit := "m",
          OfferStatus := "available", Status := StatusActive, Version := 4,
          events := [] }], []⟩
      noFaults ⟨"FAB1", "Silk", "m", "new"⟩ 5).calledVersion = some 4 ∧
    (handleDeleteEvent
      ⟨[{ Code := "FAB1", Name := "Cotton", MeasureUnit := "m",
          OfferStatus := "available", Status := StatusActive, Version := 4,
          events := [] }], []⟩
      noFaults ⟨"FAB1", "Silk", "m", "new"⟩ 5).calledVersion = some 5 ∧
    (handleDeleteEvent
      ⟨[{ Code := "FAB1", Name := "Cotton", MeasureUnit := "m",
          OfferStatus := "available", Status := StatusActive, Version := 4,
          events := [] }], []⟩
      noFaults ⟨"FAB1", "Silk", "m", "new"⟩ 5).retErr = none ∧
    (handleDeleteEvent
      ⟨[{ Code := "FAB1", Name := "Cotton", MeasureUnit := "m",
          OfferStatus := "available", Status := StatusActive, Version := 4,
          events := [] }], []⟩
      noFaults ⟨"FAB1", "Silk", "m", "new"⟩ 5).state =
      ⟨[{ Code := "FAB1", Name := "Cotton", MeasureUnit := "m",
          OfferStatus := "available", Status := StatusActive, Version := 4,
          events := [] }], []⟩ := by
  refine ⟨by decide, by decide, by decide, by decide⟩

/-- C4: replaying create → delete → create through the composed service with
the real repository model: the create succeeds (row at version 1, ACTIVE),
but the delete fails with `ErrRecordNotFound` (the repository's `Delete`
matches the row on the NEW version, see C1) leaving the row ACTIVE at
version 1, so the second create fails with `ErrDuplicateFabricCode` — the
scenario never reaches version 3, status ACTIVE with a reactivated event. -/
theorem C4_delete_recreate_scenario_broken :
    (∃ f, (CreateFabricSvc ⟨[], []⟩ noFaults (some .rest) "FAB1" "Cotton" "m"
        "available").2.result = .ok f ∧ f.Version = 1 ∧
        f.Status = StatusActive) ∧
    (DeleteFabricSvc
      (CreateFabricSvc ⟨[], []⟩ noFaults (some .rest) "FAB1" "Cotton" "m"
        "available").1
      noFaults (some .rest) "FAB1" 1).2.result = .error .ErrRecordNotFound ∧
    (DeleteFabricSvc
      (CreateFabricSvc ⟨[], []⟩ noFaults (some .rest) "FAB1" "Cotton" "m"
        "available").1
      noFaults (some .rest) "FAB1" 1).1 =
      (CreateFabricSvc ⟨[], []⟩ noFaults (some .rest) "FAB1" "Cotton" "m"
        "available").1 ∧
    (CreateFabricSvc
      (DeleteFabricSvc
        (CreateFabricSvc ⟨[], []⟩ noFaults (some .rest) "FAB1" "Cotton" "m"
          "available").1
        noFaults (some .rest) "FAB1" 1).1
      noFaults (some .rest) "FAB1" "Cotton" "m" "available").2.result =
      .error .ErrDuplicateFabricCode := by
  refine ⟨?_, by decide, by decide, by decide⟩
  refine ⟨({ Code := "FAB1", Name := "Cotton", MeasureUnit := "m",
             OfferStatus := "available", Status := StatusActive, Version := 1,
             events := [.FabricCreated "FAB1" "Cotton" "m" "available" 1] } :
           Fabric), by decide, by decide, by decide⟩

/-! ## Command-service publish gating -/

/-- The publish attempts are exactly the envelopes, in order, whatever the
delivery outcomes. -/
lemma publishAll_fst (envs : List EventEnvelope) (pf : Nat → Bool) :
    (publishAll envs pf).map Prod.fst = envs := by
  unfold publishAll
  rw [List.map_map]
  exact List.enum_map_snd envs

/-- Event-list shape of a successful aggregate update. -/
lemma updateFabric_events (f : Fabric) (name measureUnit offerStatus : String)
    (version : Int) (h : (f.UpdateFabric name measureUnit offerStatus version).2 = none) :
    (f.UpdateFabric name measureUnit offerStatus version).1.events =
      f.events ++ [.FabricUpdated f.Code name measureUnit offerStatus
        (f.Version + 1)] := by
  by_cases hd : f.Status = StatusDeleted
  · simp [Fabric.UpdateFabric, hd] at h
  · by_cases hv : f.Version = version
    · rcases hn : validateName name with _ | e
      · simp [Fabric.UpdateFabric, hd, hv, hn]
      · simp [Fabric.UpdateFabric, hd, hv, hn] at h
    · simp [Fabric.UpdateFabric, hd, hv] at h

/-- Event-list shape of a successful aggregate delete. -/
lemma delete_events (f : Fabric) (version : Int)
    (h : (f.Delete version).2 = none) :
    (f.Delete version).1.events =
      f.events ++ [.FabricDeleted f.Code (f.Version + 1)] := by
  by_cases hd : f.Status = StatusDeleted
  · simp [Fabric.Delete, hd] at h
  · by_cases hv : f.Version = version
    · simp [Fabric.Delete, hd, hv]
    · simp [Fabric.Delete, hd, hv] at h

/-- Event-list shape of a successful reactivation of a non-ACTIVE
aggregate. -/
lemma reactivate_events (f : Fabric) (name measureUnit offerStatus : String)
    (version : Int) (hA : ¬f.Status = StatusActive)
    (h : (f.Reactivate name measureUnit offerStatus version).2 = none) :
    (f.Reactivate name measureUnit offerStatus version).1.events =
      f.events ++ [.FabricReactivated f.Code name measureUnit offerStatus
        (f.Version + 1)] := by
  by_cases hv : f.Version = version
  · rcases hn : validateName name with _ | e
    · simp [Fabric.Reactivate, hA, hv, hn]
    · simp [Fabric.Reactivate, hA, hv, hn] at h
  · simp [Fabric.Reactivate, hA, hv] at h

/-- The update envelope list of a successful aggregate update is nonempty. -/
lemma updatedEnvelopes_ne (f : Fabric) (name measureUnit offerStatus : String)
    (version : Int) (h : (f.UpdateFabric name measureUnit offerStatus version).2 = none) :
    updatedEnvelopes (f.UpdateFabric name measureUnit offerStatus version).1 ≠ [] := by
  unfold updatedEnvelopes Fabric.Events
  rw [updateFabric_events f name measureUnit offerStatus version h]
  simp [List.filterMap_append]

/-- The delete envelope list of a successful aggregate delete is nonempty. -/
lemma deletedEnvelopes_ne (f : Fabric) (version : Int)
    (h : (f.Delete version).2 = none) :
    deletedEnvelopes (f.Delete version).1 ≠ [] := by
  unfold deletedEnvelopes Fabric.Events
  rw [delete_events f version h]
  simp [List.filterMap_append]

/-- The create/reactivate envelope list produced by a successful repository
`Save` is nonempty whenever the aggregate passed in carries one (a fresh
aggregate always does: its single pending event is `FabricCreated`). -/
lemma repoSave_createEnvelopes_ne (table : List Fabric)
    (fabric persisted : Fabric) (fabrics' : List Fabric)
    (hfe : createEnvelopes fabric ≠ [])
    (hS : repoSave table fabric = (fabrics', .ok persisted)) :
    createEnvelopes persisted ≠ [] := by
  unfold repoSave at hS
  rcases hF : table.find? (fun r => decide (r.Code = fabric.Code)) with _ | existing
  · rw [hF] at hS
    dsimp only at hS
    have := congrArg Prod.snd hS
    dsimp only at this
    have hp : fabric = persisted := by
      injection this
    rw [← hp]; exact hfe
  · rw [hF] at hS
    dsimp only at hS
    by_cases hAct : existing.Status = StatusActive
    · rw [if_pos hAct] at hS
      have := congrArg Prod.snd hS
      simp at this
    · rw [if_neg hAct] at hS
      by_cases hDel : existing.Status = StatusDeleted
      · rw [if_pos hDel] at hS
        rcases hR : existing.Reactivate fabric.Name fabric.MeasureUnit
            fabric.OfferStatus existing.Version with ⟨ef, r⟩
        rw [hR] at hS
        cases r with
        | none =>
          have hsnd := congrArg Prod.snd hS
          dsimp only at hsnd
          have hp : ef = persisted := by injection hsnd
          have hev := reactivate_events existing fabric.Name fabric.MeasureUnit
            fabric.OfferStatus existing.Version hAct (by rw [hR])
          rw [hR] at hev
          dsimp only at hev
          rw [← hp]
          unfold createEnvelopes Fabric.Events
          rw [hev]
          simp [List.filterMap_append]
        | some e =>
          have := congrArg Prod.snd hS
          simp at this
      · rw [if_neg hDel] at hS
        have := congrArg Prod.snd hS
        dsimp only at this
        have hp : fabric = persisted := by injection this
        rw [← hp]; exact hfe

/-- Shape of `CreateFabric`'s observable output: failures store and publish
nothing; a success stores a nonempty envelope batch and attempts to publish
exactly that batch when and only when the context reads as REST. -/
lemma createSvc_shape (st : SysState) (fl : Faults) (ctx : Ctx)
    (code name measureUnit offerStatus : String) :
    (∀ e : AppError,
      (CreateFabricSvc st fl ctx code name measureUnit offerStatus).2.result = .error e →
      (CreateFabricSvc st fl ctx code name measureUnit offerStatus).2.stored = [] ∧
      (CreateFabricSvc st fl ctx code name measureUnit offerStatus).2.published = []) ∧
    (∀ f : Fabric,
      (CreateFabricSvc st fl ctx code name measureUnit offerStatus).2.result = .ok f →
      (CreateFabricSvc st fl ctx code name measureUnit offerStatus).2.stored ≠ [] ∧
      (CreateFabricSvc st fl ctx code name measureUnit offerStatus).2.published =
        (if IsFromREST ctx then
          publishAll
            (CreateFabricSvc st fl ctx code name measureUnit offerStatus).2.stored
            fl.pubFault
         else [])) := by
  unfold CreateFabricSvc
  rcases hN : NewFabric code name measureUnit offerStatus with e0 | fabric
  · simp only [hN]
    exact ⟨fun e _ => ⟨by simp, by simp⟩, fun f h => absurd h (by simp)⟩
  · simp only [hN]
    have hfe : createEnvelopes fabric ≠ [] := by
      rw [(newFabric_ok code name measureUnit offerStatus fabric hN).1]
      simp [createEnvelopes, Fabric.Events]
    cases hW : fl.repoWriteFault with
    | true =>
      simp only [hW, if_true]
      exact ⟨fun e _ => ⟨by simp, by simp⟩, fun f h => absurd h (by simp)⟩
    | false =>
      simp only [hW, Bool.false_eq_true, if_false]
      rcases hS : repoSave st.fabrics fabric with ⟨fabrics', res⟩
      cases res with
      | error e1 =>
        exact ⟨fun e _ => ⟨by simp, by simp⟩, fun f h => absurd h (by simp)⟩
      | ok persisted =>
        dsimp only
        have hne := repoSave_createEnvelopes_ne st.fabrics fabric persisted
          fabrics' hfe hS
        cases hb : (createEnvelopes persisted).isEmpty with
        | true => exact absurd (List.isEmpty_iff.mp hb) hne
        | false =>
          simp only [hb, Bool.false_eq_true, if_false]
          rcases hE2 : esSave st.events (createEnvelopes persisted)
              fl.storeBeginFault fl.storeExecFault fl.storeCommitFault
            with ⟨events', res2⟩
          cases res2 with
          | some e2 =>
            exact ⟨fun e _ => ⟨by simp, by simp⟩, fun f h => absurd h (by simp)⟩
          | none =>
            dsimp only
            refine ⟨fun e h => absurd h (by simp), fun f _ => ⟨hne, rfl⟩⟩

/-- Shape of `UpdateFabric`'s observable output (see `createSvc_shape`). -/
lemma updateSvc_shape (st : SysState) (fl : Faults) (ctx : Ctx)
    (code name measureUnit offerStatus : String) (version : Int) :
    (∀ e : AppError,
      (UpdateFabricSvc st fl ctx code name measureUnit offerStatus version).2.result =
        .error e →
      (UpdateFabricSvc st fl ctx code name measureUnit offerStatus version).2.stored = [] ∧
      (UpdateFabricSvc st fl ctx code name measureUnit offerStatus version).2.published = []) ∧
    (∀ f : Fabric,
      (UpdateFabricSvc st fl ctx code name measureUnit offerStatus version).2.result =
        .ok f →
      (UpdateFabricSvc st fl ctx code name measureUnit offerStatus version).2.stored ≠ [] ∧
      (UpdateFabricSvc st fl ctx code name measureUnit offerStatus version).2.published =
        (if IsFromREST ctx then
          publishAll
            (UpdateFabricSvc st fl ctx code name measureUnit offerStatus
              version).2.stored
            fl.pubFault
         else [])) := by
  unfold UpdateFabricSvc
  cases hG : fl.repoGetFault with
  | true =>
    simp only [hG, if_true]
    exact ⟨fun e _ => ⟨by simp, by simp⟩, fun f h => absurd h (by simp)⟩
  | false =>
    simp only [hG, Bool.false_eq_true, if_false]
    rcases hR : repoGetByCode st.fabrics code with e0 | fabric
    · exact ⟨fun e _ => ⟨by simp, by simp⟩, fun f h => absurd h (by simp)⟩
    · dsimp only
      rcases hU : fabric.UpdateFabric name measureUnit offerStatus version
        with ⟨updated, ru⟩
      cases ru with
      | some e1 =>
        exact ⟨fun e _ => ⟨by simp, by simp⟩, fun f h => absurd h (by simp)⟩
      | none =>
        dsimp only
        have hne : updatedEnvelopes updated ≠ [] := by
          have := updatedEnvelopes_ne fabric name measureUnit offerStatus
            version (by rw [hU])
          rw [hU] at this
          exact this
        cases hW : fl.repoWriteFault with
        | true =>
          simp only [hW, if_true]
          exact ⟨fun e _ => ⟨by simp, by simp⟩, fun f h => absurd h (by simp)⟩
        | false =>
          simp only [hW, Bool.false_eq_true, if_false]
          rcases hP : repoUpdate st.fabrics updated with ⟨fabrics', rp⟩
          cases rp with
          | some e2 =>
            exact ⟨fun e _ => ⟨by simp, by simp⟩, fun f h => absurd h (by simp)⟩
          | none =>
            dsimp only
            cases hb : (updatedEnvelopes updated).isEmpty with
            | true => exact absurd (List.isEmpty_iff.mp hb) hne
            | false =>
              simp only [hb, Bool.false_eq_true, if_false]
              rcases hE2 : esSave st.events (updatedEnvelopes updated)
                  fl.storeBeginFault fl.storeExecFault fl.storeCommitFault
                with ⟨events', res2⟩
              cases res2 with
              | some e3 =>
                exact ⟨fun e _ => ⟨by simp, by simp⟩,
                  fun f h => absurd h (by simp)⟩
              | none =>
                dsimp only
                refine ⟨fun e h => absurd h (by simp), fun f _ => ⟨hne, rfl⟩⟩

/-- Shape of `DeleteFabric`'s observable output (see `createSvc_shape`). -/
lemma deleteSvc_shape (st : SysState) (fl : Faults) (ctx : Ctx)
    (code : String) (version : Int) :
    (∀ e : AppError,
      (DeleteFabricSvc st fl ctx code version).2.result = .error e →
      (DeleteFabricSvc st fl ctx code version).2.stored = [] ∧
      (DeleteFabricSvc st fl ctx code version).2.published = []) ∧
    (∀ u : Unit,
      (DeleteFabricSvc st fl ctx code version).2.result = .ok u →
      (DeleteFabricSvc st fl ctx code version).2.stored ≠ [] ∧
      (DeleteFabricSvc st fl ctx code version).2.published =
        (if IsFromREST ctx then
          publishAll ((DeleteFabricSvc st fl ctx code version).2.stored)
            fl.pubFault
         else [])) := by
  unfold DeleteFabricSvc
  cases hG : fl.repoGetFault with
  | true =>
    simp only [hG, if_true]
    exact ⟨fun e _ => ⟨by simp, by simp⟩, fun f h => absurd h (by simp)⟩
  | false =>
    simp only [hG, Bool.false_eq_true, if_false]
    rcases hR : repoGetByCode st.fabrics code with e0 | fabric
    · exact ⟨fun e _ => ⟨by simp, by simp⟩, fun f h => absurd h (by simp)⟩
    · dsimp only
      rcases hU : fabric.Delete version with ⟨deleted, ru⟩
      cases ru with
      | some e1 =>
        exact ⟨fun e _ => ⟨by simp, by simp⟩, fun f h => absurd h (by simp)⟩
      | none =>
        dsimp only
        have hne : deletedEnvelopes deleted ≠ [] := by
          have := deletedEnvelopes_ne fabric version (by rw [hU])
          rw [hU] at this
          exact this
        cases hW : fl.repoWriteFault with
        | true =>
          simp only [hW, if_true]
          exact ⟨fun e _ => ⟨by simp, by simp⟩, fun f h => absurd h (by simp)⟩
        | false =>
          simp only [hW, Bool.false_eq_true, if_false]
          rcases hP : repoDelete st.fabrics deleted with ⟨fabrics', rp⟩
          cases rp with
          | some e2 =>
            exact ⟨fun e _ => ⟨by simp, by simp⟩, fun f h => absurd h (by simp)⟩
          | none =>
            dsimp only
            cases hb : (deletedEnvelopes deleted).isEmpty with
            | true => exact absurd (List.isEmpty_iff.mp hb) hne
            | false =>
              simp only [hb, Bool.false_eq_true, if_false]
              rcases hE2 : esSave st.events (deletedEnvelopes deleted)
                  fl.storeBeginFault fl.storeExecFault fl.storeCommitFault
                with ⟨events', res2⟩
              cases res2 with
              | some e3 =>
                exact ⟨fun e _ => ⟨by simp, by simp⟩,
                  fun f h => absurd h (by simp)⟩
              | none =>
                dsimp only
                refine ⟨fun e h => absurd h (by simp), fun f _ => ⟨hne, rfl⟩⟩

/-- The publisher fault oracle cannot influence a `CreateFabric` call's state,
result, stored envelopes or publish attempts — only the delivery outcomes. -/
lemma createSvc_pubFault_scrub (st : SysState) (fl : Faults)
    (pf pf' : Nat → Bool) (ctx : Ctx)
    (code name measureUnit offerStatus : String) :
    scrub (CreateFabricSvc st { fl with pubFault := pf } ctx code name
      measureUnit offerStatus) =
    scrub (CreateFabricSvc st { fl with pubFault := pf' } ctx code name
      measureUnit offerStatus) := by
  unfold CreateFabricSvc
  dsimp only
  rcases hN : NewFabric code name measureUnit offerStatus with e0 | fabric
  · rfl
  · cases hW : fl.repoWriteFault with
    | true => simp only [hW, if_true]
    | false =>
      simp only [hW, Bool.false_eq_true, if_false]
      rcases hS : repoSave st.fabrics fabric with ⟨fabrics', res⟩
      cases res with
      | error e1 => rfl
      | ok persisted =>
        dsimp only
        cases hb : (createEnvelopes persisted).isEmpty with
        | true => simp only [hb, if_true]
        | false =>
          simp only [hb, Bool.false_eq_true, if_false]
          rcases hE2 : esSave st.events (createEnvelopes persisted)
              fl.storeBeginFault fl.storeExecFault fl.storeCommitFault
            with ⟨events', res2⟩
          cases res2 with
          | some e2 => rfl
          | none =>
            dsimp only [scrub]
            cases hRest : IsFromREST ctx with
            | true =>
              simp only [hRest, if_true, publishAll_fst]
            | false =>
              simp only [hRest, Bool.false_eq_true, if_false]

/-- The publisher fault oracle cannot influence an `UpdateFabric` call's
state, result, stored envelopes or publish attempts. -/
lemma updateSvc_pubFault_scrub (st : SysState) (fl : Faults)
    (pf pf' : Nat → Bool) (ctx : Ctx)
    (code name measureUnit offerStatus : String) (version : Int) :
    scrub (UpdateFabricSvc st { fl with pubFault := pf } ctx code name
      measureUnit offerStatus version) =
    scrub (UpdateFabricSvc st { fl with pubFault := pf' } ctx code name
      measureUnit offerStatus version) := by
  unfold UpdateFabricSvc
  dsimp only
  cases hG : fl.repoGetFault with
  | true => simp only [hG, if_true]
  | false =>
    simp only [hG, Bool.false_eq_true, if_false]
    rcases hR : repoGetByCode st.fabrics code with e0 | fabric
    · rfl
    · dsimp only
      rcases hU : fabric.UpdateFabric name measureUnit offerStatus version
        with ⟨updated, ru⟩
      cases ru with
      | some e1 => rfl
      | none =>
        dsimp only
        cases hW : fl.repoWriteFault with
        | true => simp only [hW, if_true]
        | false =>
          simp only [hW, Bool.false_eq_true, if_false]
          rcases hP : repoUpdate st.fabrics updated with ⟨fabrics', rp⟩
          cases rp with
          | some e2 => rfl
          | none =>
            dsimp only
            cases hb : (updatedEnvelopes updated).isEmpty with
            | true => simp only [hb, if_true]
            | false =>
              simp only [hb, Bool.false_eq_true, if_false]
              rcases hE2 : esSave st.events (updatedEnvelopes updated)
                  fl.storeBeginFault fl.storeExecFault fl.storeCommitFault
                with ⟨events', res2⟩
              cases res2 with
              | some e3 => rfl
              | none =>
                dsimp only [scrub]
                cases hRest : IsFromREST ctx with
                | true =>
                  simp only [hRest, if_true, publishAll_fst]
                | false =>
                  simp only [hRest, Bool.false_eq_true, if_false]

/-- The publisher fault oracle cannot influence a `DeleteFabric` call's
state, result, stored envelopes or publish attempts. -/
lemma deleteSvc_pubFault_scrub (st : SysState) (fl : Faults)
    (pf pf' : Nat → Bool) (ctx : Ctx) (code : String) (version : Int) :
    scrub (DeleteFabricSvc st { fl with pubFault := pf } ctx code version) =
    scrub (DeleteFabricSvc st { fl with pubFault := pf' } ctx code version) := by
  unfold DeleteFabricSvc
  dsimp only
  cases hG : fl.repoGetFault with
  | true => simp only [hG, if_true]
  | false =>
    simp only [hG, Bool.false_eq_true, if_false]
    rcases hR : repoGetByCode st.fabrics code with e0 | fabric
    · rfl
    · dsimp only
      rcases hU : fabric.Delete version with ⟨deleted, ru⟩
      cases ru with
      | some e1 => rfl
      | none =>
        dsimp only
        cases hW : fl.repoWriteFault with
        | true => simp only [hW, if_true]
        | false =>
          simp only [hW, Bool.false_eq_true, if_false]
          rcases hP : repoDelete st.fabrics deleted with ⟨fabrics', rp⟩
          cases rp with
          | some e2 => rfl
          | none =>
            dsimp only
            cases hb : (deletedEnvelopes deleted).isEmpty with
            | true => simp only [hb, if_true]
            | false =>
              simp only [hb, Bool.false_eq_true, if_false]
              rcases hE2 : esSave st.events (deletedEnvelopes deleted)
                  fl.storeBeginFault fl.storeExecFault fl.storeCommitFault
                with ⟨events', res2⟩
              cases res2 with
              | some e3 => rfl
              | none =>
                dsimp only [scrub]
                cases hRest : IsFromREST ctx with
                | true =>
                  simp only [hRest, if_true, publishAll_fst]
                | false =>
                  simp only [hRest, Bool.false_eq_true, if_false]

/-- Publish attempts of a nonempty envelope list are themselves nonempty. -/
lemma publishAll_ne (envs : List EventEnvelope) (pf : Nat → Bool)
    (h : envs ≠ []) : publishAll envs pf ≠ [] := by
  intro hc
  apply h
  have := congrArg (List.map Prod.fst) hc
  rw [publishAll_fst] at this
  simpa using this

/-- C6: for each mutation command (`CreateFabric`, `UpdateFabric`,
`DeleteFabric`): a failed command publishes nothing; a non-REST context
publishes nothing; a successful command under a REST context attempts to
publish exactly the stored envelopes (a nonempty list); and the publisher
fault oracle influences neither the resulting state, nor the command's
result, nor the stored envelopes, nor the publish attempts — a publish
failure never fails the command. -/
theorem C6_publish_gating :
    (∀ (st : SysState) (fl : Faults) (ctx : Ctx)
      (code name measureUnit offerStatus : String) (e : AppError),
      (CreateFabricSvc st fl ctx code name measureUnit offerStatus).2.result =
        .error e →
      (CreateFabricSvc st fl ctx code name measureUnit offerStatus).2.published = []) ∧
    (∀ (st : SysState) (fl : Faults) (ctx : Ctx)
      (code name measureUnit offerStatus : String),
      IsFromREST ctx = false →
      (CreateFabricSvc st fl ctx code name measureUnit offerStatus).2.published = []) ∧
    (∀ (st : SysState) (fl : Faults) (ctx : Ctx)
      (code name measureUnit offerStatus : String) (f : Fabric),
      (CreateFabricSvc st fl ctx code name measureUnit offerStatus).2.result = .ok f →
      IsFromREST ctx = true →
      (CreateFabricSvc st fl ctx code name measureUnit offerStatus).2.published.map
          Prod.fst =
        (CreateFabricSvc st fl ctx code name measureUnit offerStatus).2.stored ∧
      (CreateFabricSvc st fl ctx code name measureUnit offerStatus).2.published ≠ []) ∧
    (∀ (st : SysState) (fl : Faults) (ctx : Ctx)
      (code name measureUnit offerStatus : String) (version : Int) (e : AppError),
      (UpdateFabricSvc st fl ctx code name measureUnit offerStatus version).2.result =
        .error e →
      (UpdateFabricSvc st fl ctx code name measureUnit offerStatus
        version).2.published = []) ∧
    (∀ (st : SysState) (fl : Faults) (ctx : Ctx)
      (code name measureUnit offerStatus : String) (version : Int),
      IsFromREST ctx = false →
      (UpdateFabricSvc st fl ctx code name measureUnit offerStatus
        version).2.published = []) ∧
    (∀ (st : SysState) (fl : Faults) (ctx : Ctx)
      (code name measureUnit offerStatus : String) (version : Int) (f : Fabric),
      (UpdateFabricSvc st fl ctx code name measureUnit offerStatus version).2.result =
        .ok f →
      IsFromREST ctx = true →
      (UpdateFabricSvc st fl ctx code name measureUnit offerStatus
          version).2.published.map Prod.fst =
        (UpdateFabricSvc st fl ctx code name measureUnit offerStatus
          version).2.stored ∧
      (UpdateFabricSvc st fl ctx code name measureUnit offerStatus
        version).2.published ≠ []) ∧
    (∀ (st : SysState) (fl : Faults) (ctx : Ctx) (code : String) (version : Int)
      (e : AppError),
      (DeleteFabricSvc st fl ctx code version).2.result = .error e →
      (DeleteFabricSvc st fl ctx code version).2.published = []) ∧
    (∀ (st : SysState) (fl : Faults) (ctx : Ctx) (code : String) (version : Int),
      IsFromREST ctx = false →
      (DeleteFabricSvc st fl ctx code version).2.published = []) ∧
    (∀ (st : SysState) (fl : Faults) (ctx : Ctx) (code : String) (version : Int)
      (u : Unit),
      (DeleteFabricSvc st fl ctx code version).2.result = .ok u →
      IsFromREST ctx = true →
      (DeleteFabricSvc st fl ctx code version).2.published.map Prod.fst =
        (DeleteFabricSvc st fl ctx code version).2.stored ∧
      (DeleteFabricSvc st fl ctx code version).2.published ≠ []) ∧
    (∀ (st : SysState) (fl : Faults) (pf pf' : Nat → Bool) (ctx : Ctx)
      (code name measureUnit offerStatus : String),
      scrub (CreateFabricSvc st { fl with pubFault := pf } ctx code name
        measureUnit offerStatus) =
      scrub (CreateFabricSvc st { fl with pubFault := pf' } ctx code name
        measureUnit offerStatus)) ∧
    (∀ (st : SysState) (fl : Faults) (pf pf' : Nat → Bool) (ctx : Ctx)
      (code name measureUnit offerStatus : String) (version : Int),
      scrub (UpdateFabricSvc st { fl with pubFault := pf } ctx code name
        measureUnit offerStatus version) =
      scrub (UpdateFabricSvc st { fl with pubFault := pf' } ctx code name
        measureUnit offerStatus version)) ∧
    (∀ (st : SysState) (fl : Faults) (pf pf' : Nat → Bool) (ctx : Ctx)
      (code : String) (version : Int),
      scrub (DeleteFabricSvc st { fl with pubFault := pf } ctx code version) =
      scrub (DeleteFabricSvc st { fl with pubFault := pf' } ctx code version)) := by
  refine ⟨?_, ?_, ?_, ?_, ?_, ?_, ?_, ?_, ?_,
    createSvc_pubFault_scrub, updateSvc_pubFault_scrub, deleteSvc_pubFault_scrub⟩
  · intro st fl ctx code name measureUnit offerStatus e h
    exact ((createSvc_shape st fl ctx code name measureUnit offerStatus).1 e h).2
  · intro st fl ctx code name measureUnit offerStatus hrest
    rcases hres : (CreateFabricSvc st fl ctx code name measureUnit
        offerStatus).2.result with e | f
    · exact ((createSvc_shape st fl ctx code name measureUnit offerStatus).1 e hres).2
    · rw [((createSvc_shape st fl ctx code name measureUnit offerStatus).2 f hres).2,
        hrest]
      simp
  · intro st fl ctx code name measureUnit offerStatus f hres hrest
    have h2 := (createSvc_shape st fl ctx code name measureUnit offerStatus).2 f hres
    rw [h2.2, hrest]
    simp only [if_true]
    exact ⟨publishAll_fst _ _, publishAll_ne _ _ h2.1⟩
  · intro st fl ctx code name measureUnit offerStatus version e h
    exact ((updateSvc_shape st fl ctx code name measureUnit offerStatus
      version).1 e h).2
  · intro st fl ctx code name measureUnit offerStatus version hrest
    rcases hres : (UpdateFabricSvc st fl ctx code name measureUnit offerStatus
        version).2.result with e | f
    · exact ((updateSvc_shape st fl ctx code name measureUnit offerStatus
        version).1 e hres).2
    · rw [((updateSvc_shape st fl ctx code name measureUnit offerStatus
          version).2 f hres).2, hrest]
      simp
  · intro st fl ctx code name measureUnit offerStatus version f hres hrest
    have h2 := (updateSvc_shape st fl ctx code name measureUnit offerStatus
      version).2 f hres
    rw [h2.2, hrest]
    simp only [if_true]
    exact ⟨publishAll_fst _ _, publishAll_ne _ _ h2.1⟩
  · intro st fl ctx code version e h
    exact ((deleteSvc_shape st fl ctx code version).1 e h).2
  · intro st fl ctx code version hrest
    rcases hres : (DeleteFabricSvc st fl ctx code version).2.result with e | u
    · exact ((deleteSvc_shape st fl ctx code version).1 e hres).2
    · rw [((deleteSvc_shape st fl ctx code version).2 u hres).2, hrest]
      simp
  · intro st fl ctx code version u hres hrest
    have h2 := (deleteSvc_shape st fl ctx code version).2 u hres
    rw [h2.2, hrest]
    simp only [if_true]
    exact ⟨publishAll_fst _ _, publishAll_ne _ _ h2.1⟩

/-- C6 witness: a concrete successful REST-context create attempts to publish
exactly its stored envelope, and the same command under an event-sourced
context publishes nothing. -/
theorem C6_witness :
    ((CreateFabricSvc ⟨[], []⟩ noFaults (some .rest) "FAB1" "Cotton" "m"
        "available").2.published.map Prod.fst =
      (CreateFabricSvc ⟨[], []⟩ noFaults (some .rest) "FAB1" "Cotton" "m"
        "available").2.stored ∧
      (CreateFabricSvc ⟨[], []⟩ noFaults (some .rest) "FAB1" "Cotton" "m"
        "available").2.published ≠ []) ∧
    (CreateFabricSvc ⟨[], []⟩ noFaults (some .event) "FAB1" "Cotton" "m"
      "available").2.published = [] :=
  ⟨C6_publish_gating.2.2.1 ⟨[], []⟩ noFaults (some .rest) "FAB1" "Cotton" "m"
      "available"
      { Code := "FAB1", Name := "Cotton", MeasureUnit := "m",
        OfferStatus := "available", Status := StatusActive, Version := 1,
        events := [.FabricCreated "FAB1" "Cotton" "m" "available" 1] }
      (by decide) (by decide),
    C6_publish_gating.2.1 ⟨[], []⟩ noFaults (some .event) "FAB1" "Cotton" "m"
      "available" (by decide)⟩

/-! ## Adapter retry classification -/

/-- `validateCode` can only name the code rules. -/
lemma validateCode_err (code : String) (e : AppError)
    (h : validateCode code = some e) :
    e = .ErrInvalidFabricCodeLength ∨ e = .ErrInvalidFabricCodePattern := by
  unfold validateCode at h
  split at h
  · exact Or.inl (Option.some.inj h).symm
  · split at h
    · exact Or.inr (Option.some.inj h).symm
    · simp at h

/-- `validateName` can only name the name rule. -/
lemma validateName_err (name : String) (e : AppError)
    (h : validateName name = some e) : e = .ErrInvalidFabricNameLength := by
  unfold validateName at h
  split at h
  · exact (Option.some.inj h).symm
  · simp at h

/-- `NewFabric` fails only with validation errors. -/
lemma newFabric_err (code name measureUnit offerStatus : String) (e : AppError)
    (h : NewFabric code name measureUnit offerStatus = .error e) :
    e = .ErrInvalidFabricCodeLength ∨ e = .ErrInvalidFabricCodePattern ∨
    e = .ErrInvalidFabricNameLength := by
  unfold NewFabric at h
  rcases hc : validateCode code with _ | e1
  · rw [hc] at h
    rcases hn : validateName name with _ | e2
    · rw [hn] at h; simp at h
    · rw [hn] at h
      have : e2 = e := by injection h
      exact Or.inr (Or.inr (this ▸ validateName_err name e2 hn))
  · rw [hc] at h
    have : e1 = e := by injection h
    rcases validateCode_err code e1 hc with h1 | h1
    · exact Or.inl (this ▸ h1)
    · exact Or.inr (Or.inl (this ▸ h1))

/-- A fabric loaded by `GetByCode` is a stored ACTIVE row for that code. -/
lemma repoGetByCode_ok (table : List Fabric) (code : String) (r : Fabric)
    (h : repoGetByCode table code = .ok r) :
    r ∈ table ∧ r.Code = code ∧ r.Status = StatusActive := by
  unfold repoGetByCode at h
  rcases hF : table.find? (fun x => decide (x.Code = code ∧ x.Status = StatusActive))
    with _ | r0
  · rw [hF] at h; simp at h
  · rw [hF] at h
    have hr0 : r0 = r := by injection h
    subst hr0
    refine ⟨List.mem_of_find?_eq_some hF, ?_⟩
    have hp := List.find?_some hF
    exact of_decide_eq_true hp

/-- `GetByCode` fails only with `ErrRecordNotFound`. -/
lemma repoGetByCode_err (table : List Fabric) (code : String) (e : AppError)
    (h : repoGetByCode table code = .error e) : e = .ErrRecordNotFound := by
  unfold repoGetByCode at h
  rcases hF : table.find? (fun x => decide (x.Code = code ∧ x.Status = StatusActive))
    with _ | r0
  · rw [hF] at h
    exact ((Except.error.inj h)).symm
  · rw [hF] at h; simp at h

/-- The repository's conditional `Update` fails only with
`ErrRecordNotFound`. -/
lemma repoUpdate_err (table : List Fabric) (fabric : Fabric) (e : AppError)
    (h : (repoUpdate table fabric).2 = some e) : e = .ErrRecordNotFound := by
  unfold repoUpdate at h
  dsimp only at h
  split at h
  · simp only at h
    exact (Option.some.inj h).symm
  · simp at h

/-- The repository's conditional `Delete` fails only with
`ErrRecordNotFound`. -/
lemma repoDelete_err (table : List Fabric) (fabric : Fabric) (e : AppError)
    (h : (repoDelete table fabric).2 = some e) : e = .ErrRecordNotFound := by
  unfold repoDelete at h
  dsimp only at h
  split at h
  · simp only at h
    exact (Option.some.inj h).symm
  · simp at h

/-- `Reactivate` at the aggregate's own version, on a non-ACTIVE aggregate,
can only fail the name validation. -/
lemma reactivate_self_version_err (f : Fabric)
    (name measureUnit offerStatus : String) (e : AppError)
    (hA : ¬f.Status = StatusActive)
    (h : (f.Reactivate name measureUnit offerStatus f.Version).2 = some e) :
    e = .ErrInvalidFabricNameLength := by
  rcases hn : validateName name with _ | e1
  · simp [Fabric.Reactivate, hA, hn] at h
  · simp [Fabric.Reactivate, hA, hn] at h
    exact (validateName_err name e1 hn) ▸ h.symm

/-- `UpdateFabric` on a non-DELETED aggregate fails only with a version
conflict or the name validation. -/
lemma updateFabric_err_classify (f : Fabric)
    (name measureUnit offerStatus : String) (version : Int) (e : AppError)
    (hd : ¬f.Status = StatusDeleted)
    (h : (f.UpdateFabric name measureUnit offerStatus version).2 = some e) :
    e = .ErrConcurrencyConflict ∨ e = .ErrInvalidFabricNameLength := by
  by_cases hv : f.Version = version
  · rcases hn : validateName name with _ | e1
    · simp [Fabric.UpdateFabric, hd, hv, hn] at h
    · simp [Fabric.UpdateFabric, hd, hv, hn] at h
      exact Or.inr ((validateName_err name e1 hn) ▸ h.symm)
  · simp [Fabric.UpdateFabric, hd, hv] at h
    exact Or.inl h.symm

/-- `Delete` on a non-DELETED aggregate fails only with a version conflict. -/
lemma delete_err_classify (f : Fabric) (version : Int) (e : AppError)
    (hd : ¬f.Status = StatusDeleted)
    (h : (f.Delete version).2 = some e) : e = .ErrConcurrencyConflict := by
  by_cases hv : f.Version = version
  · simp [Fabric.Delete, hd, hv] at h
  · simp [Fabric.Delete, hd, hv] at h
    exact h.symm

/-- Invariant access: stored rows carry no pending events. -/
lemma inv_events_empty (st : SysState) (hInv : invB st = true) {r : Fabric}
    (hr : r ∈ st.fabrics) : r.events = [] := by
  unfold invB at hInv
  rw [Bool.and_eq_true] at hInv
  have h1 := hInv.1
  rw [List.all_eq_true] at h1
  have h2 := h1 r hr
  rw [Bool.and_eq_true] at h2
  have := h2.1
  simpa [List.isEmpty_iff] using this

/-- Invariant access: a stored row's status is ACTIVE or DELETED. -/
lemma inv_status (st : SysState) (hInv : invB st = true) {r : Fabric}
    (hr : r ∈ st.fabrics) :
    r.Status = StatusActive ∨ r.Status = StatusDeleted := by
  unfold invB at hInv
  rw [Bool.and_eq_true] at hInv
  have h1 := hInv.1
  rw [List.all_eq_true] at h1
  have h2 := h1 r hr
  rw [Bool.and_eq_true] at h2
  have h3 := h2.2
  rw [Bool.or_eq_true] at h3
  cases h3 with
  | inl h => exact Or.inl (of_decide_eq_true h)
  | inr h => exact Or.inr (of_decide_eq_true h)

/-- Invariant access: every stored event's version is bounded by every stored
row version for its aggregate. -/
lemma inv_bound (st : SysState) (hInv : invB st = true) {env : EventEnvelope}
    (he : env ∈ st.events) {r : Fabric} (hr : r ∈ st.fabrics)
    (hc : r.Code = env.AggregateID) : env.AggregateVersion ≤ r.Version := by
  unfold invB at hInv
  rw [Bool.and_eq_true] at hInv
  have h2 := hInv.2
  rw [List.all_eq_true] at h2
  have h3 := h2 env he
  rw [Bool.and_eq_true] at h3
  have h4 := h3.2
  rw [List.all_eq_true] at h4
  have h5 := h4 r hr
  rw [Bool.or_eq_true] at h5
  cases h5 with
  | inl h => exfalso; simp [hc] at h
  | inr h => exact of_decide_eq_true h

/-- Invariant access: every stored event belongs to a stored row. -/
lemma inv_exists (st : SysState) (hInv : invB st = true) {env : EventEnvelope}
    (he : env ∈ st.events) : ∃ r ∈ st.fabrics, r.Code = env.AggregateID := by
  unfold invB at hInv
  rw [Bool.and_eq_true] at hInv
  have h2 := hInv.2
  rw [List.all_eq_true] at h2
  have h3 := h2 env he
  rw [Bool.and_eq_true] at h3
  have h4 := h3.1
  rw [List.any_eq_true] at h4
  obtain ⟨r, hr, hp⟩ := h4
  exact ⟨r, hr, of_decide_eq_true hp⟩

/-- Under the invariant, appending one version above a stored row can never
collide with a stored event. -/
lemma noKey_above (st : SysState) (hInv : invB st = true) {r : Fabric}
    (hr : r ∈ st.fabrics) (aggregateID : String) (hc : r.Code = aggregateID) :
    hasKey st.events aggregateID (r.Version + 1) = false := by
  cases hK : hasKey st.events aggregateID (r.Version + 1) with
  | false => rfl
  | true =>
    exfalso
    unfold hasKey at hK
    rw [List.any_eq_true] at hK
    obtain ⟨env, he, hp⟩ := hK
    obtain ⟨hid, hver⟩ := of_decide_eq_true hp
    have hb := inv_bound st hInv he hr (hc.trans hid.symm)
    rw [hver] at hb
    omega

/-- Under the invariant, a code with no stored row has no stored events
either, at any version. -/
lemma noKey_newcode (st : SysState) (hInv : invB st = true) (code : String)
    (ver : Int) (hnone : ∀ r ∈ st.fabrics, ¬(r.Code = code)) :
    hasKey st.events code ver = false := by
  cases hK : hasKey st.events code ver with
  | false => rfl
  | true =>
    exfalso
    unfold hasKey at hK
    rw [List.any_eq_true] at hK
    obtain ⟨env, he, hp⟩ := hK
    obtain ⟨hid, _⟩ := of_decide_eq_true hp
    obtain ⟨r, hr, hrc⟩ := inv_exists st hInv he
    exact hnone r hr (hrc.trans hid)

/-- A `ConcurrencyConflict` from the event store implies a genuine duplicate
key in the batch. -/
lemma esSave_conflict_batchDup (table batch : List EventEnvelope) (bf : Bool)
    (ef : Nat → Bool) (cf : Bool)
    (h : (esSave table batch bf ef cf).2 = some .conflict) :
    batchHasDup table batch = true := by
  unfold esSave at h
  cases bf with
  | true => simp at h
  | false =>
    simp only [Bool.false_eq_true, if_false] at h
    rcases hL : esInsertLoop table batch ef 0 with e | out
    · rw [hL] at h
      simp only at h
      have he : e = .conflict := by injection h
      exact esLoop_conflict ef batch table 0 (he ▸ hL)
    · rw [hL] at h
      cases cf with
      | true => simp at h
      | false => simp at h

/-- Duplicate check of a one-envelope batch. -/
lemma batchHasDup_single (table : List EventEnvelope) (e : EventEnvelope) :
    batchHasDup table [e] = hasKey table e.AggregateID e.AggregateVersion := by
  simp [batchHasDup]

/-- The update envelope of an eventless aggregate, explicitly. -/
lemma updatedEnvelopes_single (f : Fabric) (hfe : f.events = [])
    (name measureUnit offerStatus : String) (version : Int)
    (h : (f.UpdateFabric name measureUnit offerStatus version).2 = none) :
    updatedEnvelopes (f.UpdateFabric name measureUnit offerStatus version).1 =
      [NewEventEnvelope "app.fabric.updated" f.Code "Fabric" (f.Version + 1)
        (.FabricUpdated f.Code name measureUnit offerStatus (f.Version + 1))] := by
  by_cases hd : f.Status = StatusDeleted
  · simp [Fabric.UpdateFabric, hd] at h
  · by_cases hv : f.Version = version
    · rcases hn : validateName name with _ | e
      · simp [Fabric.UpdateFabric, updatedEnvelopes, Fabric.Events, hd, hv, hn, hfe]
      · simp [Fabric.UpdateFabric, hd, hv, hn] at h
    · simp [Fabric.UpdateFabric, hd, hv] at h

/-- The delete envelope of an eventless aggregate, explicitly. -/
lemma deletedEnvelopes_single (f : Fabric) (hfe : f.events = [])
    (version : Int) (h : (f.Delete version).2 = none) :
    deletedEnvelopes (f.Delete version).1 =
      [NewEventEnvelope "app.fabric.deleted" f.Code "Fabric" (f.Version + 1)
        (.FabricDeleted f.Code (f.Version + 1))] := by
  by_cases hd : f.Status = StatusDeleted
  · simp [Fabric.Delete, hd] at h
  · by_cases hv : f.Version = version
    · simp [Fabric.Delete, deletedEnvelopes, Fabric.Events, hd, hv, hfe]
    · simp [Fabric.Delete, hd, hv] at h

/-- The reactivation envelope of an eventless non-ACTIVE aggregate
reactivated at its own version, explicitly. -/
lemma createEnvelopes_single_reactivate (f : Fabric) (hfe : f.events = [])
    (name measureUnit offerStatus : String) (hA : ¬f.Status = StatusActive)
    (h : (f.Reactivate name measureUnit offerStatus f.Version).2 = none) :
    createEnvelopes (f.Reactivate name measureUnit offerStatus f.Version).1 =
      [NewEventEnvelope "app.fabric.reactivated" f.Code "fabric" (f.Version + 1)
        (.FabricReactivated f.Code name measureUnit offerStatus (f.Version + 1))] := by
  rcases hn : validateName name with _ | e
  · simp [Fabric.Reactivate, createEnvelopes, Fabric.Events, hA, hn, hfe]
  · simp [Fabric.Reactivate, hA, hn] at h

/-- The creation envelope of a freshly validated aggregate, explicitly. -/
lemma createEnvelopes_new (code name measureUnit offerStatus : String)
    (fabric : Fabric)
    (hN : NewFabric code name measureUnit offerStatus = .ok fabric) :
    createEnvelopes fabric =
      [NewEventEnvelope "app.fabric.created" code "fabric" 1
        (.FabricCreated code name measureUnit offerStatus 1)] := by
  rw [(newFabric_ok code name measureUnit offerStatus fabric hN).1]
  simp [createEnvelopes, Fabric.Events]

/-- On an invariant-satisfying state, a failed `CreateFabric` carries an
injected infrastructure failure, the duplicate-code error, or a validation
error — never the event store's conflict. -/
lemma createSvc_err_classify (st : SysState) (fl : Faults) (ctx : Ctx)
    (code name measureUnit offerStatus : String) (e : AppError)
    (hInv : invB st = true)
    (h : (CreateFabricSvc st fl ctx code name measureUnit offerStatus).2.result =
      .error e) :
    e = .ErrInfra ∨ e = .ErrDuplicateFabricCode ∨
    e = .ErrInvalidFabricCodeLength ∨ e = .ErrInvalidFabricCodePattern ∨
    e = .ErrInvalidFabricNameLength := by
  unfold CreateFabricSvc at h
  split at h
  · -- NewFabric failed
    rename_i e0 hN
    simp only at h
    have he : e0 = e := by injection h
    rcases newFabric_err code name measureUnit offerStatus e0 hN with h1 | h1 | h1
    · exact Or.inr (Or.inr (Or.inl (he ▸ h1)))
    · exact Or.inr (Or.inr (Or.inr (Or.inl (he ▸ h1))))
    · exact Or.inr (Or.inr (Or.inr (Or.inr (he ▸ h1))))
  · -- NewFabric succeeded
    rename_i fabric hN
    split at h
    · -- repository write fault
      simp only at h
      have : AppError.ErrInfra = e := by injection h
      exact Or.inl this.symm
    · -- no repository fault
      split at h
      · -- repoSave failed
        rename_i e1 hS
        simp only at h
        have he : e1 = e := by injection h
        subst he
        -- classify the repoSave error
        unfold repoSave at hS
        rcases hF : st.fabrics.find? (fun r => decide (r.Code = fabric.Code))
          with _ | existing
        · rw [hF] at hS
          simp at hS
        · rw [hF] at hS
          dsimp only at hS
          by_cases hAct : existing.Status = StatusActive
          · rw [if_pos hAct] at hS
            have := congrArg Prod.snd hS
            dsimp only at this
            have hd : AppError.ErrDuplicateFabricCode = e1 := by injection this
            exact Or.inr (Or.inl hd.symm)
          · rw [if_neg hAct] at hS
            by_cases hDel : existing.Status = StatusDeleted
            · rw [if_pos hDel] at hS
              rcases hR : existing.Reactivate fabric.Name fabric.MeasureUnit
                  fabric.OfferStatus existing.Version with ⟨ef, rr⟩
              rw [hR] at hS
              cases rr with
              | none =>
                have := congrArg Prod.snd hS
                simp at this
              | some e2 =>
                have := congrArg Prod.snd hS
                dsimp only at this
                have he2 : e2 = e1 := by injection this
                have := reactivate_self_version_err existing fabric.Name
                  fabric.MeasureUnit fabric.OfferStatus e2 hAct (by rw [hR])
                exact Or.inr (Or.inr (Or.inr (Or.inr (he2 ▸ this))))
            · rw [if_neg hDel] at hS
              have := congrArg Prod.snd hS
              simp at this
      · -- repoSave succeeded
        rename_i fabrics' persisted hS
        dsimp only at h
        cases hb : (createEnvelopes persisted).isEmpty with
        | true =>
          rw [hb] at h
          simp at h
        | false =>
          rw [hb] at h
          simp only [Bool.false_eq_true, if_false] at h
          rcases hE2 : esSave st.events (createEnvelopes persisted)
              fl.storeBeginFault fl.storeExecFault fl.storeCommitFault
            with ⟨events', res2⟩
          rw [hE2] at h
          cases res2 with
          | none => simp at h
          | some e2 =>
            simp only at h
            have he : mapEsError e2 = e := by injection h
            cases e2 with
            | storage => exact Or.inl he.symm
            | conflict =>
              exfalso
              have hdup := esSave_conflict_batchDup st.events
                (createEnvelopes persisted) fl.storeBeginFault fl.storeExecFault
                fl.storeCommitFault (by rw [hE2])
              -- identify the single envelope appended
              unfold repoSave at hS
              rcases hF : st.fabrics.find? (fun r => decide (r.Code = fabric.Code))
                with _ | existing
              · -- fresh insert: no row for this code, hence no events for it
                rw [hF] at hS
                dsimp only at hS
                have hp : fabric = persisted := by
                  have := congrArg Prod.snd hS
                  dsimp only at this
                  injection this
                rw [← hp, createEnvelopes_new code name measureUnit offerStatus
                  fabric hN, batchHasDup_single] at hdup
                dsimp only [NewEventEnvelope] at hdup
                have hcode : fabric.Code = code := by
                  rw [(newFabric_ok code name measureUnit offerStatus fabric hN).1]
                have hnone : ∀ r ∈ st.fabrics, ¬(r.Code = code) := by
                  intro r hr
                  have := List.find?_eq_none.mp hF r hr
                  rw [← hcode]
                  simpa using this
                rw [noKey_newcode st hInv code 1 hnone] at hdup
                simp at hdup
              · rw [hF] at hS
                dsimp only at hS
                have hmem := List.mem_of_find?_eq_some hF
                have hexcode : existing.Code = fabric.Code := by
                  have hp2 := List.find?_some hF
                  exact of_decide_eq_true hp2
                by_cases hAct : existing.Status = StatusActive
                · rw [if_pos hAct] at hS
                  have := congrArg Prod.snd hS
                  simp at this
                · rw [if_neg hAct] at hS
                  by_cases hDel : existing.Status = StatusDeleted
                  · rw [if_pos hDel] at hS
                    rcases hR : existing.Reactivate fabric.Name fabric.MeasureUnit
                        fabric.OfferStatus existing.Version with ⟨ef, rr⟩
                    rw [hR] at hS
                    cases rr with
                    | some e3 =>
                      have := congrArg Prod.snd hS
                      simp at this
                    | none =>
                      have hp : ef = persisted := by
                        have := congrArg Prod.snd hS
                        dsimp only at this
                        injection this
                      have hone := createEnvelopes_single_reactivate existing
                        (inv_events_empty st hInv hmem) fabric.Name
                        fabric.MeasureUnit fabric.OfferStatus hAct (by rw [hR])
                      rw [hR] at hone
                      dsimp only at hone
                      rw [← hp, hone, batchHasDup_single] at hdup
                      dsimp only [NewEventEnvelope] at hdup
                      rw [noKey_above st hInv hmem existing.Code rfl] at hdup
                      simp at hdup
                  · exact absurd (inv_status st hInv hmem)
                      (by rw [not_or]; exact ⟨hAct, hDel⟩)

/-- On an invariant-satisfying state, a failed `UpdateFabric` command carries
an injected infrastructure failure, `NotFound`, the domain concurrency
conflict, or the name validation error — never the event store's conflict. -/
lemma updateSvc_err_classify (st : SysState) (fl : Faults) (ctx : Ctx)
    (code name measureUnit offerStatus : String) (version : Int) (e : AppError)
    (hInv : invB st = true)
    (h : (UpdateFabricSvc st fl ctx code name measureUnit offerStatus
      version).2.result = .error e) :
    e = .ErrInfra ∨ e = .ErrRecordNotFound ∨ e = .ErrConcurrencyConflict ∨
    e = .ErrInvalidFabricNameLength := by
  unfold UpdateFabricSvc at h
  split at h
  · simp only at h
    have : AppError.ErrInfra = e := by injection h
    exact Or.inl this.symm
  · split at h
    · rename_i e0 hG
      simp only at h
      have : e0 = e := by injection h
      exact Or.inr (Or.inl (this ▸ repoGetByCode_err st.fabrics code e0 hG))
    · rename_i fabric hG
      obtain ⟨hmem, hcode, hact⟩ := repoGetByCode_ok st.fabrics code fabric hG
      have hd : ¬fabric.Status = StatusDeleted := by rw [hact]; decide
      split at h
      · rename_i fst e1 hU
        simp only at h
        have : e1 = e := by injection h
        rcases updateFabric_err_classify fabric name measureUnit offerStatus
            version e1 hd (by rw [hU]) with h1 | h1
        · exact Or.inr (Or.inr (Or.inl (this ▸ h1)))
        · exact Or.inr (Or.inr (Or.inr (this ▸ h1)))
      · rename_i updated hU
        split at h
        · simp only at h
          have : AppError.ErrInfra = e := by injection h
          exact Or.inl this.symm
        · split at h
          · rename_i fst e2 hP
            simp only at h
            have : e2 = e := by injection h
            exact Or.inr (Or.inl
              (this ▸ repoUpdate_err st.fabrics updated e2 (by rw [hP])))
          · rename_i fabrics' hP
            dsimp only at h
            cases hb : (updatedEnvelopes updated).isEmpty with
            | true => rw [hb] at h; simp at h
            | false =>
              rw [hb] at h
              simp only [Bool.false_eq_true, if_false] at h
              rcases hE2 : esSave st.events (updatedEnvelopes updated)
                  fl.storeBeginFault fl.storeExecFault fl.storeCommitFault
                with ⟨events', res2⟩
              rw [hE2] at h
              cases res2 with
              | none => simp at h
              | some e3 =>
                simp only at h
                have he : mapEsError e3 = e := by injection h
                cases e3 with
                | storage => exact Or.inl he.symm
                | conflict =>
                  exfalso
                  have hdup := esSave_conflict_batchDup st.events
                    (updatedEnvelopes updated) fl.storeBeginFault
                    fl.storeExecFault fl.storeCommitFault (by rw [hE2])
                  have hone := updatedEnvelopes_single fabric
                    (inv_events_empty st hInv hmem) name measureUnit
                    offerStatus version (by rw [hU])
                  rw [hU] at hone
                  dsimp only at hone
                  rw [hone, batchHasDup_single] at hdup
                  dsimp only [NewEventEnvelope] at hdup
                  rw [noKey_above st hInv hmem fabric.Code rfl] at hdup
                  simp at hdup

/-- On an invariant-satisfying state, a failed `DeleteFabric` command carries
an injected infrastructure failure, `NotFound`, or the domain concurrency
conflict — never the event store's conflict. -/
lemma deleteSvc_err_classify (st : SysState) (fl : Faults) (ctx : Ctx)
    (code : String) (version : Int) (e : AppError)
    (hInv : invB st = true)
    (h : (DeleteFabricSvc st fl ctx code version).2.result = .error e) :
    e = .ErrInfra ∨ e = .ErrRecordNotFound ∨ e = .ErrConcurrencyConflict := by
  unfold DeleteFabricSvc at h
  split at h
  · simp only at h
    have : AppError.ErrInfra = e := by injection h
    exact Or.inl this.symm
  · split at h
    · rename_i e0 hG
      simp only at h
      have : e0 = e := by injection h
      exact Or.inr (Or.inl (this ▸ repoGetByCode_err st.fabrics code e0 hG))
    · rename_i fabric hG
      obtain ⟨hmem, hcode, hact⟩ := repoGetByCode_ok st.fabrics code fabric hG
      have hd : ¬fabric.Status = StatusDeleted := by rw [hact]; decide
      split at h
      · rename_i fst e1 hU
        simp only at h
        have : e1 = e := by injection h
        exact Or.inr (Or.inr
          (this ▸ delete_err_classify fabric version e1 hd (by rw [hU])))
      · rename_i deleted hU
        split at h
        · simp only at h
          have : AppError.ErrInfra = e := by injection h
          exact Or.inl this.symm
        · split at h
          · rename_i fst e2 hP
            simp only at h
            have : e2 = e := by injection h
            exact Or.inr (Or.inl
              (this ▸ repoDelete_err st.fabrics deleted e2 (by rw [hP])))
          · rename_i fabrics' hP
            dsimp only at h
            cases hb : (deletedEnvelopes deleted).isEmpty with
            | true => rw [hb] at h; simp at h
            | false =>
              rw [hb] at h
              simp only [Bool.false_eq_true, if_false] at h
              rcases hE2 : esSave st.events (deletedEnvelopes deleted)
                  fl.storeBeginFault fl.storeExecFault fl.storeCommitFault
                with ⟨events', res2⟩
              rw [hE2] at h
              cases res2 with
              | none => simp at h
              | some e3 =>
                simp only at h
                have he : mapEsError e3 = e := by injection h
                cases e3 with
                | storage => exact Or.inl he.symm
                | conflict =>
                  exfalso
                  have hdup := esSave_conflict_batchDup st.events
                    (deletedEnvelopes deleted) fl.storeBeginFault
                    fl.storeExecFault fl.storeCommitFault (by rw [hE2])
                  have hone := deletedEnvelopes_single fabric
                    (inv_events_empty st hInv hmem) version (by rw [hU])
                  rw [hU] at hone
                  dsimp only at hone
                  rw [hone, batchHasDup_single] at hdup
                  dsimp only [NewEventEnvelope] at hdup
                  rw [noKey_above st hInv hmem fabric.Code rfl] at hdup
                  simp at hdup

/-- C7: the inbound adapter acknowledges (returns nil for) `DuplicateCode`
and validation failures on a create, and `NotFound`, `ConcurrencyConflict`
and the name validation failure on an update or delete; and on any state
satisfying the reachability invariant, whenever a handler does return an
error — triggering redelivery — that error is an injected
infrastructure-class failure. -/
theorem C7_adapter_retry_policy :
    (createErrPolicy .ErrDuplicateFabricCode = none ∧
     createErrPolicy .ErrInvalidFabricCodeLength = none ∧
     createErrPolicy .ErrInvalidFabricCodePattern = none ∧
     createErrPolicy .ErrInvalidFabricNameLength = none ∧
     updateErrPolicy .ErrRecordNotFound = none ∧
     updateErrPolicy .ErrConcurrencyConflict = none ∧
     updateErrPolicy .ErrInvalidFabricNameLength = none ∧
     deleteErrPolicy .ErrRecordNotFound = none ∧
     deleteErrPolicy .ErrConcurrencyConflict = none) ∧
    (∀ (st : SysState) (fl : Faults) (event : ErpFabricEvent),
      invB st = true → ∀ e : AppError,
      (handleCreateEvent st fl event).retErr = some e → e = .ErrInfra) ∧
    (∀ (st : SysState) (fl : Faults) (event : ErpFabricEvent) (version : Int),
      invB st = true → ∀ e : AppError,
      (handleUpdateEvent st fl event version).retErr = some e →
      e = .ErrInfra) ∧
    (∀ (st : SysState) (fl : Faults) (event : ErpFabricEvent) (version : Int),
      invB st = true → ∀ e : AppError,
      (handleDeleteEvent st fl event version).retErr = some e →
      e = .ErrInfra) := by
  refine ⟨by decide, ?_, ?_, ?_⟩
  · intro st fl event hInv e h
    unfold handleCreateEvent at h
    dsimp only at h
    cases hV : validCreateFabricEvent (withDefaults event) with
    | false =>
      rw [hV] at h
      simp at h
    | true =>
      rw [hV] at h
      simp only [Bool.not_true, Bool.false_eq_true, if_false] at h
      rcases hout : CreateFabricSvc st fl (WithCommandSource none .event)
          (withDefaults event).Code (withDefaults event).Name
          (withDefaults event).MeasureUnit (withDefaults event).OfferStatus
        with ⟨st', r⟩
      rw [hout] at h
      dsimp only at h
      rcases hres : r.result with e1 | f
      · rw [hres] at h
        dsimp only at h
        have hres2 : (CreateFabricSvc st fl (WithCommandSource none .event)
            (withDefaults event).Code (withDefaults event).Name
            (withDefaults event).MeasureUnit
            (withDefaults event).OfferStatus).2.result = .error e1 := by
          rw [hout]; exact hres
        rcases createSvc_err_classify st fl (WithCommandSource none .event)
            (withDefaults event).Code (withDefaults event).Name
            (withDefaults event).MeasureUnit (withDefaults event).OfferStatus
            e1 hInv hres2 with rfl | rfl | rfl | rfl | rfl
        · simp [createErrPolicy] at h
          exact h.symm
        · simp [createErrPolicy] at h
        · simp [createErrPolicy] at h
        · simp [createErrPolicy] at h
        · simp [createErrPolicy] at h
      · rw [hres] at h
        simp at h
  · intro st fl event version hInv e h
    unfold handleUpdateEvent at h
    dsimp only at h
    cases hV : validUpdateFabricEvent version (withDefaults event) with
    | false =>
      rw [hV] at h
      simp at h
    | true =>
      rw [hV] at h
      simp only [Bool.not_true, Bool.false_eq_true, if_false] at h
      rcases hout : UpdateFabricSvc st fl (WithCommandSource none .event)
          (withDefaults event).Code (withDefaults event).Name
          (withDefaults event).MeasureUnit (withDefaults event).OfferStatus
          (version - 1)
        with ⟨st', r⟩
      rw [hout] at h
      dsimp only at h
      rcases hres : r.result with e1 | f
      · rw [hres] at h
        dsimp only at h
        have hres2 : (UpdateFabricSvc st fl (WithCommandSource none .event)
            (withDefaults event).Code (withDefaults event).Name
            (withDefaults event).MeasureUnit (withDefaults event).OfferStatus
            (version - 1)).2.result = .error e1 := by
          rw [hout]; exact hres
        rcases updateSvc_err_classify st fl (WithCommandSource none .event)
            (withDefaults event).Code (withDefaults event).Name
            (withDefaults event).MeasureUnit (withDefaults event).OfferStatus
            (version - 1) e1 hInv hres2 with rfl | rfl | rfl | rfl
        · simp [updateErrPolicy] at h
          exact h.symm
        · simp [updateErrPolicy] at h
        · simp [updateErrPolicy] at h
        · simp [updateErrPolicy] at h
      · rw [hres] at h
        simp at h
  · intro st fl event version hInv e h
    unfold handleDeleteEvent at h
    dsimp only at h
    rcases hout : DeleteFabricSvc st fl (WithCommandSource none .event)
        event.Code version
      with ⟨st', r⟩
    rw [hout] at h
    dsimp only at h
    rcases hres : r.result with e1 | u
    · rw [hres] at h
      dsimp only at h
      have hres2 : (DeleteFabricSvc st fl (WithCommandSource none .event)
          event.Code version).2.result = .error e1 := by
        rw [hout]; exact hres
      rcases deleteSvc_err_classify st fl (WithCommandSource none .event)
          event.Code version e1 hInv hres2 with rfl | rfl | rfl
      · simp [deleteErrPolicy] at h
        exact h.symm
      · simp [deleteErrPolicy] at h
      · simp [deleteErrPolicy] at h
    · rw [hres] at h
      simp at h

/-- C7 witness: the empty system satisfies the invariant; a create event
handled while the repository write fails with an infrastructure fault is
returned for redelivery with exactly that infrastructure error. -/
theorem C7_witness :
    invB ⟨[], []⟩ = true ∧
    (handleCreateEvent ⟨[], []⟩ { noFaults with repoWriteFault := true }
      ⟨"FAB1", "Name", "m", "a"⟩).retErr = some .ErrInfra ∧
    AppError.ErrInfra = AppError.ErrInfra :=
  ⟨by decide, by decide,
    C7_adapter_retry_policy.2.1 ⟨[], []⟩
      { noFaults with repoWriteFault := true } ⟨"FAB1", "Name", "m", "a"⟩
      (by decide) .ErrInfra (by decide)⟩

end GoWorks
